import Mathlib

/-!
Shallow embedding of the title/panel/sharing/guide bookkeeping of
`proplot/axes/base.py` (class `Axes`), together with theorems checking the
natural-language specification against it.

Modelling conventions:
* matplotlib `Text` objects are records of their text string, color and font
  properties plus a passthrough association list for the remaining style keys
  (border, bbox, ...) handled by the monkey-patched `Axes._update_text`.
* Python dicts are association lists over `String` keys; `dict.update`
  replaces the value of an existing key in place and appends fresh keys,
  which matches CPython's insertion-order semantics.
* axes objects are records (`AxCore`); object identity is the `id` field.
* the grid-position oracle (`SubplotSpec._get_rows_columns`) is embedded as
  the `rows`/`cols` fields holding inclusive (start, stop) grid ranges.
-/

namespace Proplot

/-- Keyword-argument dictionary: association list with `String` keys. -/
abbrev KW := List (String × String)

/-- Lookup of the first entry with the given key (Python `d[k]` / `k in d`). -/
def alGet {β : Type} (d : List (String × β)) (k : String) : Option β :=
  (d.find? (fun p => p.fst = k)).map Prod.snd

/-- Python `d[k] = v`: replace the value at an existing key in place
(keeping its insertion position), or append a fresh key at the end. -/
def alSet {β : Type} (d : List (String × β)) (k : String) (v : β) : List (String × β) :=
  if d.any (fun p => p.fst = k) then
    d.map (fun p => if p.fst = k then (k, v) else p)
  else
    d ++ [(k, v)]

/-- Python `d.pop(k)` / `del d[k]`: drop every entry with the given key. -/
def alErase {β : Type} (d : List (String × β)) (k : String) : List (String × β) :=
  d.filter (fun p => ¬ p.fst = k)

/-- Python `d.update(kw)`: fold `alSet` over the update dictionary. -/
def dictUpdate {β : Type} (d kw : List (String × β)) : List (String × β) :=
  kw.foldl (fun acc p => alSet acc p.fst p.snd) d

/-- Font properties transported by `Text.get_fontproperties` /
`Text.set_fontproperties` (size, weight, family, ...). -/
structure FontProps where
  size : String := ""
  weight : String := ""
  family : String := ""
deriving DecidableEq

/-- A matplotlib text object as used for title slots: content string, color,
font properties and the passthrough style keys of `Axes._update_text`. -/
structure Text where
  text : String := ""
  color : String := ""
  font : FontProps := {}
  extras : KW := []
deriving DecidableEq

/-- One step of applying a keyword to a text object (the monkey-patched
`Text.update`): `text`, `color` and the font keys hit dedicated setters,
everything else is kept as passthrough properties. -/
def Text.apply1 (t : Text) (k v : String) : Text :=
  if k = "text" then { t with text := v }
  else if k = "color" then { t with color := v }
  else if k = "size" then { t with font := { t.font with size := v } }
  else if k = "weight" then { t with font := { t.font with weight := v } }
  else if k = "family" then { t with font := { t.font with family := v } }
  else { t with extras := alSet t.extras k v }

/-- `Text.update(kw)`: apply the keywords in dictionary order. -/
def Text.update (t : Text) (kw : KW) : Text :=
  kw.foldl (fun t p => t.apply1 p.fst p.snd) t

/-- Python `s.strip()`: drop leading and trailing whitespace. -/
def stripWS (s : String) : String :=
  String.mk (((s.toList.dropWhile Char.isWhitespace).reverse.dropWhile
    Char.isWhitespace).reverse)

/-- Source `Axes._transfer_text(src, dest)`: always copy color and font
properties to the destination; move the text only when it has
non-whitespace content (`if not text.strip(): return`), clearing the
source afterwards.  Returns the `(new src, new dest)` pair. -/
def transfer_text (src dest : Text) : Text × Text :=
  let dest := { dest with color := src.color, font := src.font }
  if stripWS src.text = "" then (src, dest)
  else ({ src with text := "" }, { dest with text := src.text })

/-- The ten canonical title slot names owned by every axes
(`self._title_dict` keys). -/
inductive TitleKey where
  | abc
  | left
  | center
  | right
  | upperLeft
  | upperCenter
  | upperRight
  | lowerLeft
  | lowerCenter
  | lowerRight
deriving DecidableEq

/-- The per-axes map of title slots (`self._title_dict`). -/
structure Titles where
  abc : Text := {}
  left : Text := {}
  center : Text := {}
  right : Text := {}
  upperLeft : Text := {}
  upperCenter : Text := {}
  upperRight : Text := {}
  lowerLeft : Text := {}
  lowerCenter : Text := {}
  lowerRight : Text := {}
deriving DecidableEq

/-- Read the slot with the given name. -/
def getT (ts : Titles) : TitleKey → Text
  | .abc => ts.abc
  | .left => ts.left
  | .center => ts.center
  | .right => ts.right
  | .upperLeft => ts.upperLeft
  | .upperCenter => ts.upperCenter
  | .upperRight => ts.upperRight
  | .lowerLeft => ts.lowerLeft
  | .lowerCenter => ts.lowerCenter
  | .lowerRight => ts.lowerRight

/-- Write the slot with the given name. -/
def setT (ts : Titles) (k : TitleKey) (v : Text) : Titles :=
  match k with
  | .abc => { ts with abc := v }
  | .left => { ts with left := v }
  | .center => { ts with center := v }
  | .right => { ts with right := v }
  | .upperLeft => { ts with upperLeft := v }
  | .upperCenter => { ts with upperCenter := v }
  | .upperRight => { ts with upperRight := v }
  | .lowerLeft => { ts with lowerLeft := v }
  | .lowerCenter => { ts with lowerCenter := v }
  | .lowerRight => { ts with lowerRight := v }

/-- Panel sides (`self._panel_side` values). -/
inductive Side where
  | left
  | right
  | bottom
  | top
deriving DecidableEq

/-- The `'title.above'` setting: `True`, `False` or `'panels'`. -/
inductive TitleAbove where
  | always
  | never
  | panels
deriving DecidableEq

/-- Core per-axes state of `proplot.axes.Axes` as far as the verified
bookkeeping reads or writes it.  `subplot` models
`isinstance(self, maxes.SubplotBase)`; `rows`/`cols` embed the grid
position oracle `_range_subplotspec`; `spines` holds the visibility flag
of each spine; `id` stands for Python object identity. -/
structure AxCore where
  id : Nat := 0
  subplot : Bool := true
  rows : Nat × Nat := (0, 0)
  cols : Nat × Nat := (0, 0)
  number : Option Nat := none
  panel_side : Option Side := none
  panel_hidden : Bool := false
  panel_share : Bool := true
  titles : Titles := {}
  title_loc : Option TitleKey := none
  abc_loc : TitleKey := TitleKey.left
  title_above : TitleAbove := TitleAbove.panels
  title_pad : Int := 5
  abc_title_pad : Int := 4
  title_border_kwargs : KW := []
  spines : List Bool := [true, true, true, true]
  xaxis_visible : Bool := true
  yaxis_visible : Bool := true
  patch_alpha : Int := 1
  patch_facecolor : String := "white"
deriving DecidableEq

/-- A main subplot axes together with its four inside-to-outside panel
stacks (`self._panel_dict`); panels themselves cannot carry panels. -/
structure MainAx where
  core : AxCore := {}
  top : List AxCore := []
  bottom : List AxCore := []
  lhs : List AxCore := []
  rhs : List AxCore := []
deriving DecidableEq

/-- `self._panel_dict[side]`. -/
def MainAx.panelDict (m : MainAx) : Side → List AxCore
  | .left => m.lhs
  | .right => m.rhs
  | .bottom => m.bottom
  | .top => m.top

/-- Source `Axes._hide_panel`: make every spine and both axis objects
invisible, zero out the background patch and flag the panel hidden,
without removing it from any stack. -/
def hide_panel (ax : AxCore) : AxCore :=
  { ax with
    spines := ax.spines.map (fun _ => false)
    xaxis_visible := false
    yaxis_visible := false
    patch_alpha := 0
    patch_facecolor := "none"
    panel_hidden := true }

/-- Source `Axes._range_subplotspec(x)`: the column range for `'x'`, the
row range for `'y'`.  The boolean argument is `true` for `'x'`. -/
def rangeSS (a : AxCore) (x : Bool) : Nat × Nat :=
  if x then a.cols else a.rows

/-- Maximum of a list of integers (`0` on the empty list, never used there). -/
def maxVal : List Int → Int
  | [] => 0
  | [x] => x
  | x :: y :: l => max x (maxVal (y :: l))

/-- Minimum of a list of integers (`0` on the empty list, never used there). -/
def minVal : List Int → Int
  | [] => 0
  | [x] => x
  | x :: y :: l => min x (minVal (y :: l))

/-- Index of the first maximal element, i.e. `np.argmax` over a list. -/
def argmaxIdx : List Int → Nat
  | [] => 0
  | [_] => 0
  | x :: y :: l => if x < maxVal (y :: l) then argmaxIdx (y :: l) + 1 else 0

/-- Index of the first minimal element, i.e. `np.argmin` over a list. -/
def argminIdx : List Int → Nat
  | [] => 0
  | [_] => 0
  | x :: y :: l => if minVal (y :: l) < x then argminIdx (y :: l) + 1 else 0

/-- Modelled from the spec: `Figure._iter_axes(hidden=False, children=False,
panels=False)` lives in the figure module, outside this file.  Per the
Axis-Sharing Graph contract it supplies the candidate main axes of the
figure: non-panel axes that are not hidden. -/
def iter_axes (fig : List AxCore) : List AxCore :=
  fig.filter (fun a => a.panel_side = none && a.panel_hidden = false)

/-- The value `np.argmax` / `np.argmin` ranges over in `_get_share_axes`:
`ax._range_subplotspec(y)[idx]` with `y` the perpendicular dimension and
`idx = 0` for x-sharing (row start) and `idx = 1` for y-sharing
(column stop). -/
def shareValue (x : Bool) (a : AxCore) : Int :=
  if x then (a.rows.fst : Int) else (a.cols.snd : Int)

/-- The deduplicated candidate list `list({self, *axs})` of
`_get_share_axes`.  A figure's axes are distinct Python objects, so the
set union only has to deduplicate `self` itself; the set iteration order
is implementation-defined and is modelled as `self` first. -/
def shareCandidates (fig : List AxCore) (self : AxCore) (x : Bool) : List AxCore :=
  self :: ((iter_axes fig).filter
    (fun a => rangeSS a x = rangeSS self x)).filter (fun b => ¬ b.id = self.id)

/-- Source `Axes._get_share_axes(x)`: the axes of the figure whose grid
extent along the shared dimension matches this axes, with the reference
(bottommost for x via `np.argmax` over row starts, leftmost for y via
`np.argmin` over column stops) moved to the front.  Non-subplot axes
return only themselves. -/
def get_share_axes (fig : List AxCore) (self : AxCore) (x : Bool) : List AxCore :=
  if self.subplot = false then [self]
  else
    let axs := shareCandidates fig self x
    let vals := axs.map (shareValue x)
    let i := if x then argmaxIdx vals else argminIdx vals
    axs.getD i self :: axs.eraseIdx i

/-- Source `Axes._share_short_axis(share, side)`: the pairwise
inside-to-outside walk that zips this subplot's visible panels on `side`
with the sibling's visible panels on the same side.  The result lists the
`_share{x,y}_setup` invocations as `(child id, parent id, is x axis)`
triples; actually wiring the shared axis is the plotting library's work. -/
def share_short_axis (self : MainAx) (share : Option MainAx) (side : Side) :
    List (Nat × Nat × Bool) :=
  match share with
  | none => []
  | some sh =>
    if self.core.panel_side ≠ none then []
    else
      let axis : Bool := side = Side.left || side = Side.right
      let caxs := (self.panelDict side).filter (fun p => p.panel_hidden = false)
      let paxs := (sh.panelDict side).filter (fun p => p.panel_hidden = false)
      (caxs.zip paxs).map (fun cp => (cp.fst.id, cp.snd.id, axis))

/-- The slot names arbitrated by `_above_title`: `('left', 'center',
'right')`, plus `'abc'` when the a-b-c location is one of those names. -/
def titleNames (abcLoc : TitleKey) : List TitleKey :=
  [TitleKey.left, TitleKey.center, TitleKey.right] ++
    (if abcLoc = TitleKey.left ∨ abcLoc = TitleKey.center ∨ abcLoc = TitleKey.right
      then [TitleKey.abc] else [])

/-- The loop body of `_above_title`: transfer each named slot from the
source title dict to the destination title dict in order. -/
def transferNames (names : List TitleKey) (src dest : Titles) : Titles × Titles :=
  names.foldl
    (fun p name =>
      let r := transfer_text (getT p.fst name) (getT p.snd name)
      (setT p.fst name r.fst, setT p.snd name r.snd))
    (src, dest)

/-- The body of `_above_title` once the outermost top panel `pax` is in
hand: decide the flow direction, transfer the outer slots and the pads,
and reinstall the updated panel as the last entry of the top stack. -/
def above_title_core (st : MainAx) (pax : AxCore) : MainAx :=
  let names := titleNames st.core.abc_loc
  if st.core.title_above = TitleAbove.always ∨
      (pax.panel_hidden = false ∧ st.core.title_above = TitleAbove.panels) then
    let r := transferNames names st.core.titles pax.titles
    let pax := { pax with
      titles := r.snd
      title_pad := st.core.title_pad
      abc_title_pad := st.core.abc_title_pad }
    { st with core := { st.core with titles := r.fst }, top := st.top.dropLast ++ [pax] }
  else
    let r := transferNames names pax.titles st.core.titles
    let pax := { pax with titles := r.fst }
    { st with
      core := { st.core with
        titles := r.snd
        title_pad := pax.title_pad
        abc_title_pad := pax.abc_title_pad }
      top := st.top.dropLast ++ [pax] }

/-- Source `Axes._above_title`: with a non-empty top panel stack, move the
outer title slots between the main axes and the outermost top panel.
Content flows main to panel when `'title.above'` is `True`, or when it is
`'panels'` and that panel is not hidden; otherwise panel to main.  The
destination also inherits the source's title pads. -/
def above_title (st : MainAx) : MainAx :=
  match st.top.getLast? with
  | none => st
  | some pax => above_title_core st pax

/-- Source `Axes._update_title(loc, title, **kwargs)`.  The ambient rc
lookups are passed explicitly: `rcKw` is the `rc.fill` style dictionary
(size, weight, color, family), `kwb` the border/bbox dictionary merged
into `self._title_border_kwargs`, `padAbc`/`padTitle` the two
`rc.find` pad results and `rcLoc` the `rc.find('title.loc')` result.
`_translate_loc` is the identity on the canonical slot names used here;
its default when neither rc nor the stored location supplies a value is
modelled as `'center'` (that resolution lives in the config module,
outside this file).  `_set_title_offset_trans` is a scene-graph call with
no bookkeeping effect. -/
def rc_title_style (rcKw : KW) : KW :=
  if alGet rcKw "color" = some "auto" then alErase rcKw "color" else rcKw

/-- The two `rc.find(... pad ...)` assignments of `_update_title`
(`_set_title_offset_trans` is a pure scene-graph call). -/
def setPads (core : AxCore) (padAbc padTitle : Option Int) : AxCore :=
  let core := match padAbc with
    | some p => { core with abc_title_pad := p }
    | none => core
  match padTitle with
    | some p => { core with title_pad := p }
    | none => core

/-- The location-resolution block of `_update_title`: an explicit `loc`
is used as is; otherwise the rc location (or the stored one) is stored
back and, when the location changed, the slot content is transferred from
the old location to the new one. -/
def resolve_title_loc (core : AxCore) (loc : Option TitleKey)
    (rcLoc : Option TitleKey) : TitleKey × AxCore :=
  match loc with
  | some l => (l, core)
  | none =>
    let old := core.title_loc
    let l := match ((rcLoc).orElse (fun _ => core.title_loc)) with
      | some k => k
      | none => TitleKey.center
    let core := { core with title_loc := some l }
    match old with
    | some o =>
      if ¬ l = o then
        let r := transfer_text (getT core.titles o) (getT core.titles l)
        (l, { core with titles := setT (setT core.titles o r.fst) l r.snd })
      else (l, core)
    | none => (l, core)

def update_title (st : MainAx) (loc : Option TitleKey) (title : Option String)
    (rcKw kwb kwargs : KW) (padAbc padTitle : Option Int)
    (rcLoc : Option TitleKey) : MainAx :=
  let kw := rc_title_style rcKw
  let core := { st.core with title_border_kwargs := dictUpdate st.core.title_border_kwargs kwb }
  let core := setPads core padAbc padTitle
  let lCore := resolve_title_loc core loc rcLoc
  let l := lCore.fst
  let core := lCore.snd
  let kw := if l = TitleKey.left ∨ l = TitleKey.right ∨ l = TitleKey.center then kw
    else dictUpdate kw core.title_border_kwargs
  let kw := match title with
    | some t => dictUpdate kw [("text", t)]
    | none => kw
  let kw := dictUpdate kw kwargs
  let core := { core with titles := setT core.titles l ((getT core.titles l).update kw) }
  above_title { st with core := core }

/-- The lowercase alphabet used to build a-b-c labels (`ABC_STRING`). -/
def ABC_STRING : String := "abcdefghijklmnopqrstuvwxyz"

/-- The i-th alphabet letter (`ABC_STRING[i]`). -/
def abcLetter (i : Nat) : Char :=
  ABC_STRING.toList.getD i 'a'

/-- The character class of `re.search('[aA]', abc)`. -/
def isAorA (c : Char) : Bool :=
  c = 'a' || c = 'A'

/-- Python `s.replace(old, new, 1)` for a single-character pattern. -/
def replaceFirstChar : List Char → Char → List Char → List Char
  | [], _, _ => []
  | c :: rest, old, new =>
    if c = old then new ++ rest else c :: replaceFirstChar rest old new

/-- Source `Axes._update_abc` label construction (lines building
`a...z...aa...zz...`): find the first `'a'` or `'A'` of the style string,
build `(nabc + 1)` copies of letter `iabc` where
`nabc, iabc = divmod(number - 1, 26)`, uppercase the block when the
matched letter was `'A'`, and substitute it for the first occurrence.
Returns `none` when the style string has no `'a'`/`'A'` (the source
raises `ValueError` before reaching this code). -/
def abcLabel (s : String) (number : Nat) : Option String :=
  match s.toList.find? isAorA with
  | none => none
  | some old =>
    let nabc := (number - 1) / 26
    let iabc := (number - 1) % 26
    let base := List.replicate (nabc + 1) (abcLetter iabc)
    let new := if old = 'A' then base.map Char.toUpper else base
    some (String.mk (replaceFirstChar s.toList old new))

/-- Index of the first `'a'`/`'A'` in a character list. -/
def findIdxAorA : List Char → Option Nat
  | [] => none
  | c :: rest => if isAorA c then some 0 else (findIdxAorA rest).map (· + 1)

/-- Stated from the claim's words, for comparison with `abcLabel`: replace
the first `'a'`/`'A'` of the style string (located by index) with
`((n-1) div 26 + 1)` repetitions of the `((n-1) mod 26)`-th alphabet
letter, upper-cased when the matched style letter is `'A'`. -/
def specAbcLabel (s : String) (number : Nat) : Option String :=
  match findIdxAorA s.toList with
  | none => none
  | some i =>
    let old := s.toList.getD i 'a'
    let reps := (number - 1) / 26 + 1
    let letter := abcLetter ((number - 1) % 26)
    let body := List.replicate reps letter
    let body := if old = 'A' then body.map Char.toUpper else body
    some (String.mk (s.toList.take i ++ body ++ s.toList.drop (i + 1)))

/-- Guide kinds handled by `_add_guide`. -/
inductive GuideKind where
  | legend
  | colorbar
deriving DecidableEq

/-- A resolved guide object: either an opaque pre-existing artist (`raw`),
or the artifact the external drawing collaborator materializes from a
flushed pending entry (`drawn loc handles labels kwargs`, recording the
inputs of `_draw_legend` / `_draw_colorbar`). -/
inductive GObj where
  | raw : Nat → GObj
  | drawn : String → List Nat → Option (List String) → KW → GObj
deriving DecidableEq

/-- A guide registry entry: the pending `(handles, labels, kwargs)` tuple
or a resolved object. -/
inductive GuideEntry where
  | pending : List Nat → List String → KW → GuideEntry
  | resolved : GObj → GuideEntry
deriving DecidableEq

/-- The guide bookkeeping state of one axes: `self._legend_dict`,
`self._colorbar_dict`, the matplotlib `self.legend_` attribute and
`self._panel_side` (consulted by the `loc == 'fill'` branch). -/
structure GuideState where
  legend_dict : List (String × GuideEntry) := []
  colorbar_dict : List (String × GuideEntry) := []
  legend_attr : Option GObj := none
  panel_side : Option Side := none
deriving DecidableEq

/-- The location key a `'fill'` registration resolves to on a panel. -/
def sideLocName : Side → String
  | .left => "left"
  | .right => "right"
  | .bottom => "bottom"
  | .top => "top"

/-- The `obj` argument of `_add_guide`: a `(handles, labels)` payload tuple
(with the `_not_none(..., [])` defaulting applied by the caller side of
the model) or an already-materialized object.  Tuples containing a
`Legend` instance fall under `object` as well, matching the
`isinstance` test of the source. -/
inductive GuideInput where
  | payload : Option (List Nat) → Option (List String) → GuideInput
  | object : GObj → GuideInput

/-- Source `Axes._add_guide(guide, obj, loc, **kwargs)`.  Returns the new
state together with the list of resolved objects whose `remove()`
collaborator was invoked.  Paths mirrored from the source: `'fill'`
redirects to the panel side (and silently returns on non-panels); a
previous resolved entry at `loc` is popped, with `remove()` called only
for legends that are not the tracked `self.legend_`; payload tuples are
appended into the pending entry created by `setdefault`; objects replace
whatever is at `loc`. -/
def add_guide (st : GuideState) (guide : GuideKind) (obj : GuideInput)
    (loc0 : String) (kwargs : KW) : GuideState × List GObj :=
  match (if loc0 = "fill" then st.panel_side.map sideLocName else some loc0) with
  | none => (st, [])
  | some loc =>
    let d := match guide with
      | .legend => st.legend_dict
      | .colorbar => st.colorbar_dict
    let popped : List (String × GuideEntry) × Option GObj × List GObj :=
      match alGet d loc with
      | some (GuideEntry.resolved prev) =>
        let d := alErase d loc
        match guide with
        | .colorbar => (d, st.legend_attr, [])
        | .legend =>
          if st.legend_attr = some prev then (d, none, [])
          else (d, st.legend_attr, [prev])
      | _ => (d, st.legend_attr, [])
    let d := popped.fst
    let attr := popped.snd.fst
    let removed := popped.snd.snd
    let d := match obj with
      | .payload h l =>
        match alGet d loc with
        | some (GuideEntry.pending hf lf kf) =>
          alSet d loc (.pending (hf ++ h.getD []) (lf ++ l.getD []) (dictUpdate kf kwargs))
        | _ => d ++ [(loc, .pending (h.getD []) (l.getD []) (dictUpdate [] kwargs))]
      | .object o => alSet d loc (.resolved o)
    match guide with
    | .legend => ({ st with legend_dict := d, legend_attr := attr }, removed)
    | .colorbar => ({ st with colorbar_dict := d, legend_attr := attr }, removed)

/-- Materialize one pending entry in place, modelling the external
`_draw_legend` / `_draw_colorbar` collaborator invocation with the
`labels or None` guard of the source; resolved entries are skipped
(pending tuples never contain `Legend` instances in this model, so the
extra legend-tuple guard of the source is vacuous). -/
def drawEntry (p : String × GuideEntry) : String × GuideEntry :=
  match p.snd with
  | .pending h l k =>
    (p.fst, GuideEntry.resolved (.drawn p.fst h (if l = [] then none else some l) k))
  | e => (p.fst, e)

/-- Source `Axes._draw_guides`: flush every queued colorbar and legend in
insertion order, replacing each pending tuple with the resolved object. -/
def draw_guides (st : GuideState) : GuideState :=
  { st with
    colorbar_dict := st.colorbar_dict.map drawEntry
    legend_dict := st.legend_dict.map drawEntry }

/-- Concrete axes record used by witnesses and counterexamples: an axes
with the given identity and grid ranges, all other fields defaulted. -/
def sampleAx (i : Nat) (r c : Nat × Nat) : AxCore :=
  { id := i, rows := r, cols := c }

/-- Concrete main axes with two visible left panels, for witnesses. -/
def sampleMain2 : MainAx :=
  { lhs := [sampleAx 10 (0, 0) (0, 0), sampleAx 11 (0, 0) (0, 0)] }

/-- Concrete main axes with one visible left panel, for witnesses. -/
def sampleMain1 : MainAx :=
  { lhs := [sampleAx 20 (0, 0) (0, 0)] }

/-- Concrete main axes with a center title and one visible top panel,
`'title.above'` at its `'panels'` default, for witnesses. -/
def sampleTopSt : MainAx where
  core := { titles := { center := { text := "Hello", color := "blue" } }, title_above := .panels }
  top := [sampleAx 30 (0, 0) (0, 0)]

/-- Concrete main axes with a center title and no panels, for witnesses. -/
def samplePlain : MainAx where
  core := { titles := { center := { text := "Hi", color := "blue" } } }

/-- Concrete guide state with one resolved colorbar, for the C3 analysis. -/
def sampleGuideCb : GuideState :=
  { colorbar_dict := [("right", GuideEntry.resolved (GObj.raw 7))] }

/-- Concrete guide state with a resolved legend and a resolved colorbar at
the same key, for witnesses. -/
def sampleGuideBoth : GuideState :=
  { legend_dict := [("left", GuideEntry.resolved (GObj.raw 5))],
    colorbar_dict := [("left", GuideEntry.resolved (GObj.raw 7))] }

/-! Helper lemmas about the dictionary model. -/

theorem alGet_eq_none_iff {β : Type} (d : List (String × β)) (k : String) :
    alGet d k = none ↔ k ∉ d.map Prod.fst := by
  unfold alGet
  rw [Option.map_eq_none', List.find?_eq_none]
  simp only [List.mem_map, decide_eq_true_eq, not_exists]
  aesop

theorem filter_eq_nil_of_alGet_none {β : Type} (d : List (String × β)) (k : String)
    (h : alGet d k = none) : d.filter (fun p => p.fst = k) = [] := by
  rw [List.filter_eq_nil_iff]
  intro p hp
  have hk := (alGet_eq_none_iff d k).mp h
  simp only [decide_eq_true_eq]
  intro hpk
  exact hk (List.mem_map.mpr ⟨p, hp, hpk⟩)

theorem find?_alSet_map {β : Type} (d : List (String × β)) (k k2 : String) (v : β)
    (h : ¬ k = k2) :
    (d.map (fun p => if p.fst = k2 then (k2, v) else p)).find? (fun p => p.fst = k) =
      d.find? (fun p => p.fst = k) := by
  induction d with
  | nil => rfl
  | cons q t ih =>
    simp only [List.map_cons, List.find?_cons]
    by_cases hq : q.fst = k2
    · have hqk : (decide (q.fst = k)) = false := by
        simp only [decide_eq_false_iff_not]
        intro hc
        rw [hq] at hc
        exact h hc.symm
      rw [if_pos hq]
      have : (decide ((k2, v).fst = k)) = false := by
        simp only [decide_eq_false_iff_not]
        intro hc
        exact h hc.symm
      rw [this, hqk]
      exact ih
    · rw [if_neg hq]
      by_cases hqk : q.fst = k
      · simp [hqk]
      · simp only [decide_eq_false (by simpa using hqk)]
        exact ih

theorem alFind_alSet_self {β : Type} (d : List (String × β)) (k : String) (v : β) :
    (alSet d k v).find? (fun p => p.fst = k) = some (k, v) := by
  unfold alSet
  by_cases hmem : d.any (fun p => p.fst = k) = true
  · rw [if_pos hmem]
    induction d with
    | nil => simp at hmem
    | cons q t ih =>
      simp only [List.map_cons, List.find?_cons]
      by_cases hq : q.fst = k
      · simp [hq]
      · have hmem2 : t.any (fun p => p.fst = k) = true := by
          simp only [List.any_cons] at hmem
          rcases Bool.or_eq_true_iff.mp hmem with h1 | h1
          · exact absurd (by simpa using h1) hq
          · exact h1
        rw [if_neg hq]
        simp only [decide_eq_false (by simpa using hq)]
        exact ih hmem2
  · rw [if_neg hmem, List.find?_append]
    have hnone : d.find? (fun p => p.fst = k) = none := by
      rw [List.find?_eq_none]
      intro p hp
      simp only [decide_eq_true_eq]
      intro hpk
      exact hmem (List.any_eq_true.mpr ⟨p, hp, by simp [hpk]⟩)
    simp [hnone]

theorem alGet_alSet_self {β : Type} (d : List (String × β)) (k : String) (v : β) :
    alGet (alSet d k v) k = some v := by
  unfold alGet
  rw [alFind_alSet_self]
  rfl

theorem alGet_alSet_ne {β : Type} (d : List (String × β)) (k k2 : String) (v : β)
    (h : ¬ k = k2) : alGet (alSet d k2 v) k = alGet d k := by
  unfold alGet alSet
  by_cases hmem : d.any (fun p => p.fst = k2) = true
  · rw [if_pos hmem, find?_alSet_map d k k2 v h]
  · rw [if_neg hmem, List.find?_append]
    cases hfind : d.find? (fun p => p.fst = k) with
    | some p => simp
    | none =>
      have : (decide ((k2, v).fst = k)) = false := by
        simp only [decide_eq_false_iff_not]
        intro hc
        exact h hc.symm
      simp [List.find?_cons, this]

theorem alGet_append_singleton_self {β : Type} (d : List (String × β)) (k : String) (v : β)
    (h : alGet d k = none) : alGet (d ++ [(k, v)]) k = some v := by
  unfold alGet at h ⊢
  rw [List.find?_append]
  cases hfind : d.find? (fun p => p.fst = k) with
  | some p => rw [hfind] at h; simp at h
  | none => simp [List.find?_cons]

theorem alGet_append_singleton_ne {β : Type} (d : List (String × β)) (k k2 : String) (v : β)
    (h : ¬ k = k2) : alGet (d ++ [(k2, v)]) k = alGet d k := by
  unfold alGet
  rw [List.find?_append]
  cases hfind : d.find? (fun p => p.fst = k) with
  | some p => simp
  | none =>
    have : (decide ((k2, v).fst = k)) = false := by
      simp only [decide_eq_false_iff_not]
      intro hc
      exact h hc.symm
    simp [List.find?_cons, this]

theorem alGet_alErase_self {β : Type} (d : List (String × β)) (k : String) :
    alGet (alErase d k) k = none := by
  rw [alGet_eq_none_iff]
  intro hk
  rcases List.mem_map.mp hk with ⟨p, hp, hpk⟩
  have := List.of_mem_filter hp
  simp only [decide_eq_true_eq] at this
  exact this hpk

theorem alGet_alErase_ne {β : Type} (d : List (String × β)) (k k2 : String)
    (h : ¬ k = k2) : alGet (alErase d k2) k = alGet d k := by
  unfold alGet alErase
  induction d with
  | nil => rfl
  | cons q t ih =>
    by_cases hq : q.fst = k2
    · have hqk : (decide (q.fst = k)) = false := by
        simp only [decide_eq_false_iff_not]
        intro hc
        rw [hq] at hc
        exact h hc.symm
      simp only [List.filter_cons, decide_eq_true_eq]
      rw [if_neg (by simp [hq])]
      rw [List.find?_cons, hqk]
      exact ih
    · simp only [List.filter_cons]
      rw [if_pos (by simp [hq])]
      by_cases hqk : q.fst = k
      · simp [List.find?_cons, hqk]
      · rw [List.find?_cons, List.find?_cons, decide_eq_false (by simpa using hqk)]
        exact ih

/-! Key-set lemmas: which keys a dictionary operation can introduce. -/

theorem mem_keys_alSet {β : Type} (d : List (String × β)) (k k2 : String) (v : β)
    (hk : k ∈ (alSet d k2 v).map Prod.fst) : k ∈ d.map Prod.fst ∨ k = k2 := by
  unfold alSet at hk
  by_cases hmem : d.any (fun p => p.fst = k2) = true
  · rw [if_pos hmem] at hk
    rcases List.mem_map.mp hk with ⟨p, hp, hpk⟩
    rcases List.mem_map.mp hp with ⟨q, hq, hqp⟩
    by_cases hq2 : q.fst = k2
    · right
      rw [← hqp] at hpk
      simp only [hq2, if_true] at hpk
      exact hpk.symm
    · left
      rw [← hqp] at hpk
      simp only [hq2, if_false] at hpk
      exact List.mem_map.mpr ⟨q, hq, hpk⟩
  · rw [if_neg hmem, List.map_append] at hk
    rcases List.mem_append.mp hk with h1 | h1
    · exact Or.inl h1
    · right
      simpa using h1

theorem mem_keys_dictUpdate {β : Type} (d kw : List (String × β)) (k : String)
    (hk : k ∈ (dictUpdate d kw).map Prod.fst) :
    k ∈ d.map Prod.fst ∨ k ∈ kw.map Prod.fst := by
  induction kw generalizing d with
  | nil => exact Or.inl hk
  | cons q t ih =>
    unfold dictUpdate at hk
    rw [List.foldl_cons] at hk
    rcases ih (alSet d q.fst q.snd) hk with h1 | h1
    · rcases mem_keys_alSet d k q.fst q.snd h1 with h2 | h2
      · exact Or.inl h2
      · exact Or.inr (by simp [h2])
    · exact Or.inr (by simp [h1])

theorem nodup_keys_alSet {β : Type} (d : List (String × β)) (k : String) (v : β)
    (h : (d.map Prod.fst).Nodup) : ((alSet d k v).map Prod.fst).Nodup := by
  unfold alSet
  by_cases hmem : d.any (fun p => p.fst = k) = true
  · rw [if_pos hmem]
    have : (d.map (fun p => if p.fst = k then (k, v) else p)).map Prod.fst = d.map Prod.fst := by
      rw [List.map_map]
      apply List.map_congr_left
      intro p _
      by_cases hp : p.fst = k
      · simp [hp]
      · simp [hp]
    rw [this]
    exact h
  · rw [if_neg hmem, List.map_append]
    have hknot : k ∉ d.map Prod.fst := by
      intro hc
      rcases List.mem_map.mp hc with ⟨p, hp, hpk⟩
      exact hmem (List.any_eq_true.mpr ⟨p, hp, by simp [hpk]⟩)
    simp only [List.map_cons, List.map_nil]
    rw [List.nodup_append]
    refine ⟨h, List.nodup_singleton k, ?_⟩
    intro a ha hb
    simp only [List.mem_singleton] at hb
    subst hb
    exact hknot ha

theorem nodup_keys_dictUpdate {β : Type} (d kw : List (String × β))
    (h : (d.map Prod.fst).Nodup) : ((dictUpdate d kw).map Prod.fst).Nodup := by
  induction kw generalizing d with
  | nil => exact h
  | cons q t ih =>
    unfold dictUpdate
    rw [List.foldl_cons]
    exact ih (alSet d q.fst q.snd) (nodup_keys_alSet d q.fst q.snd h)

theorem nodup_keys_alErase {β : Type} (d : List (String × β)) (k : String)
    (h : (d.map Prod.fst).Nodup) : ((alErase d k).map Prod.fst).Nodup := by
  have hsub : (alErase d k).Sublist d := List.filter_sublist d
  exact (hsub.map Prod.fst).nodup h

theorem alGet_dictUpdate_nodup {β : Type} (d kw : List (String × β)) (k : String)
    (hnd : (kw.map Prod.fst).Nodup) :
    alGet (dictUpdate d kw) k = (alGet kw k).orElse (fun _ => alGet d k) := by
  induction kw generalizing d with
  | nil => simp [dictUpdate, alGet]
  | cons q t ih =>
    unfold dictUpdate
    rw [List.foldl_cons]
    have hnd' : q.fst ∉ t.map Prod.fst ∧ (t.map Prod.fst).Nodup := by
      rw [List.map_cons, List.nodup_cons] at hnd
      exact hnd
    have hrec := ih (alSet d q.fst q.snd) hnd'.2
    unfold dictUpdate at hrec
    rw [hrec]
    by_cases hqk : q.fst = k
    · subst hqk
      have hknot : alGet t q.fst = none := by
        rw [alGet_eq_none_iff]
        exact hnd'.1
      rw [hknot]
      simp [Option.orElse, alGet_alSet_self, alGet, List.find?_cons]
      exact ⟨q.fst, alFind_alSet_self d q.fst q.snd⟩
    · rw [alGet_alSet_ne d k q.fst q.snd (fun hc => hqk hc.symm)]
      have hq : alGet (q :: t) k = alGet t k := by
        unfold alGet
        rw [List.find?_cons, decide_eq_false (by simpa using hqk)]
      rw [hq]

/-! Helper lemmas about text objects and title slots. -/

theorem apply1_text_ne (t : Text) (k v : String) (h : ¬ k = "text") :
    (t.apply1 k v).text = t.text := by
  unfold Text.apply1
  rw [if_neg h]
  by_cases h2 : k = "color"
  · simp [h2]
  · rw [if_neg h2]
    by_cases h3 : k = "size"
    · simp [h3]
    · rw [if_neg h3]
      by_cases h4 : k = "weight"
      · simp [h4]
      · rw [if_neg h4]
        by_cases h5 : k = "family"
        · simp [h5]
        · rw [if_neg h5]

theorem apply1_color_ne (t : Text) (k v : String) (h : ¬ k = "color") :
    (t.apply1 k v).color = t.color := by
  unfold Text.apply1
  by_cases h1 : k = "text"
  · simp [h1]
  · rw [if_neg h1, if_neg h]
    by_cases h3 : k = "size"
    · simp [h3]
    · rw [if_neg h3]
      by_cases h4 : k = "weight"
      · simp [h4]
      · rw [if_neg h4]
        by_cases h5 : k = "family"
        · simp [h5]
        · rw [if_neg h5]

theorem apply1_color_self (t : Text) (v : String) :
    (t.apply1 "color" v).color = v := by
  unfold Text.apply1
  simp

theorem update_text_of_no_text (t : Text) (kw : KW)
    (h : "text" ∉ kw.map Prod.fst) : (Text.update t kw).text = t.text := by
  induction kw generalizing t with
  | nil => rfl
  | cons q rest ih =>
    unfold Text.update
    rw [List.foldl_cons]
    have hq : ¬ q.fst = "text" := by
      intro hc
      exact h (List.mem_map.mpr ⟨q, List.mem_cons_self q rest, hc⟩)
    have hrest : "text" ∉ rest.map Prod.fst := by
      intro hc
      rcases List.mem_map.mp hc with ⟨p, hp, hpk⟩
      exact h (List.mem_map.mpr ⟨p, List.mem_cons_of_mem q hp, hpk⟩)
    have := ih (t.apply1 q.fst q.snd) hrest
    unfold Text.update at this
    rw [this, apply1_text_ne t q.fst q.snd hq]

theorem update_color_of_no_color (t : Text) (kw : KW)
    (h : "color" ∉ kw.map Prod.fst) : (Text.update t kw).color = t.color := by
  induction kw generalizing t with
  | nil => rfl
  | cons q rest ih =>
    unfold Text.update
    rw [List.foldl_cons]
    have hq : ¬ q.fst = "color" := by
      intro hc
      exact h (List.mem_map.mpr ⟨q, List.mem_cons_self q rest, hc⟩)
    have hrest : "color" ∉ rest.map Prod.fst := by
      intro hc
      rcases List.mem_map.mp hc with ⟨p, hp, hpk⟩
      exact h (List.mem_map.mpr ⟨p, List.mem_cons_of_mem q hp, hpk⟩)
    have := ih (t.apply1 q.fst q.snd) hrest
    unfold Text.update at this
    rw [this, apply1_color_ne t q.fst q.snd hq]

theorem update_color_of_nodup (t : Text) (kw : KW) (v : String)
    (hnd : (kw.map Prod.fst).Nodup) (hv : alGet kw "color" = some v) :
    (Text.update t kw).color = v := by
  induction kw generalizing t with
  | nil => simp [alGet] at hv
  | cons q rest ih =>
    unfold Text.update
    rw [List.foldl_cons]
    have hnd' : q.fst ∉ rest.map Prod.fst ∧ (rest.map Prod.fst).Nodup := by
      rw [List.map_cons, List.nodup_cons] at hnd
      exact hnd
    by_cases hq : q.fst = "color"
    · have hvq : q.snd = v := by
        unfold alGet at hv
        rw [List.find?_cons, decide_eq_true (by simpa using hq)] at hv
        simpa using hv
      have hnocolor : "color" ∉ rest.map Prod.fst := by
        rw [← hq]
        exact hnd'.1
      have := update_color_of_no_color (t.apply1 q.fst q.snd) rest hnocolor
      unfold Text.update at this
      rw [this, hq, apply1_color_self, hvq]
    · have hv' : alGet rest "color" = some v := by
        unfold alGet at hv ⊢
        rw [List.find?_cons, decide_eq_false (by simpa using hq)] at hv
        exact hv
      have := ih (t.apply1 q.fst q.snd) hnd'.2 hv'
      unfold Text.update at this
      rw [this]

theorem getT_setT_self (ts : Titles) (k : TitleKey) (v : Text) :
    getT (setT ts k v) k = v := by
  cases k <;> rfl

theorem getT_setT_ne (ts : Titles) (k k2 : TitleKey) (v : Text) (h : ¬ k = k2) :
    getT (setT ts k2 v) k = getT ts k := by
  cases k <;> cases k2 <;> first
    | rfl
    | exact absurd rfl h

theorem transferNames_cons (n : TitleKey) (t : List TitleKey) (s d : Titles) :
    transferNames (n :: t) s d =
      transferNames t
        (setT s n (transfer_text (getT s n) (getT d n)).fst)
        (setT d n (transfer_text (getT s n) (getT d n)).snd) := by
  rfl

theorem transferNames_not_mem (names : List TitleKey) (s d : Titles) (name : TitleKey)
    (h : name ∉ names) :
    getT (transferNames names s d).fst name = getT s name ∧
      getT (transferNames names s d).snd name = getT d name := by
  induction names generalizing s d with
  | nil => exact ⟨rfl, rfl⟩
  | cons n t ih =>
    have hn : ¬ name = n := by
      intro hc
      exact h (hc ▸ List.mem_cons_self n t)
    have ht : name ∉ t := by
      intro hc
      exact h (List.mem_cons_of_mem n hc)
    rw [transferNames_cons]
    have := ih (setT s n (transfer_text (getT s n) (getT d n)).fst)
      (setT d n (transfer_text (getT s n) (getT d n)).snd) ht
    rw [this.1, this.2, getT_setT_ne _ _ _ _ hn, getT_setT_ne _ _ _ _ hn]
    exact ⟨rfl, rfl⟩

theorem transferNames_mem (names : List TitleKey) (s d : Titles) (name : TitleKey)
    (hnd : names.Nodup) (h : name ∈ names) :
    getT (transferNames names s d).fst name =
      (transfer_text (getT s name) (getT d name)).fst ∧
    getT (transferNames names s d).snd name =
      (transfer_text (getT s name) (getT d name)).snd := by
  induction names generalizing s d with
  | nil => cases h
  | cons n t ih =>
    have hnd' := List.nodup_cons.mp hnd
    rw [transferNames_cons]
    by_cases hn : name = n
    · subst hn
      have hnot : name ∉ t := hnd'.1
      have := transferNames_not_mem t
        (setT s name (transfer_text (getT s name) (getT d name)).fst)
        (setT d name (transfer_text (getT s name) (getT d name)).snd) name hnot
      rw [this.1, this.2, getT_setT_self, getT_setT_self]
      exact ⟨rfl, rfl⟩
    · have ht : name ∈ t := by
        rcases List.mem_cons.mp h with hc | hc
        · exact absurd hc hn
        · exact hc
      have := ih (setT s n (transfer_text (getT s n) (getT d n)).fst)
        (setT d n (transfer_text (getT s n) (getT d n)).snd) hnd'.2 ht
      rw [this.1, this.2, getT_setT_ne _ _ _ _ hn, getT_setT_ne _ _ _ _ hn]
      exact ⟨rfl, rfl⟩

/-! Helper lemmas about argmax and argmin. -/

theorem le_maxVal (l : List Int) (a : Int) (h : a ∈ l) : a ≤ maxVal l := by
  induction l with
  | nil => cases h
  | cons x t ih =>
    cases t with
    | nil =>
      rcases List.mem_cons.mp h with hc | hc
      · simp [maxVal, hc]
      · cases hc
    | cons y l2 =>
      rcases List.mem_cons.mp h with hc | hc
      · rw [hc, maxVal]
        exact le_max_left x (maxVal (y :: l2))
      · exact le_trans (ih hc) (le_max_right x (maxVal (y :: l2)))

theorem minVal_le (l : List Int) (a : Int) (h : a ∈ l) : minVal l ≤ a := by
  induction l with
  | nil => cases h
  | cons x t ih =>
    cases t with
    | nil =>
      rcases List.mem_cons.mp h with hc | hc
      · simp [minVal, hc]
      · cases hc
    | cons y l2 =>
      rcases List.mem_cons.mp h with hc | hc
      · rw [hc, minVal]
        exact min_le_left x (minVal (y :: l2))
      · exact le_trans (min_le_right x (minVal (y :: l2))) (ih hc)

theorem argmaxIdx_lt_length (l : List Int) (h : l ≠ []) : argmaxIdx l < l.length := by
  induction l with
  | nil => exact absurd rfl h
  | cons x t ih =>
    cases t with
    | nil => simp [argmaxIdx]
    | cons y l2 =>
      rw [argmaxIdx]
      by_cases hx : x < maxVal (y :: l2)
      · rw [if_pos hx]
        have := ih (by simp)
        simpa [Nat.succ_lt_succ_iff] using this
      · rw [if_neg hx]
        simp

theorem argminIdx_lt_length (l : List Int) (h : l ≠ []) : argminIdx l < l.length := by
  induction l with
  | nil => exact absurd rfl h
  | cons x t ih =>
    cases t with
    | nil => simp [argminIdx]
    | cons y l2 =>
      rw [argminIdx]
      by_cases hx : minVal (y :: l2) < x
      · rw [if_pos hx]
        have := ih (by simp)
        simpa [Nat.succ_lt_succ_iff] using this
      · rw [if_neg hx]
        simp

theorem getD_argmaxIdx (l : List Int) (h : l ≠ []) :
    l.getD (argmaxIdx l) 0 = maxVal l := by
  induction l with
  | nil => exact absurd rfl h
  | cons x t ih =>
    cases t with
    | nil => rfl
    | cons y l2 =>
      rw [argmaxIdx, maxVal]
      by_cases hx : x < maxVal (y :: l2)
      · rw [if_pos hx]
        have := ih (by simp)
        simp only [List.getD_cons_succ]
        rw [this]
        exact (max_eq_right (le_of_lt hx)).symm
      · rw [if_neg hx]
        simp only [List.getD_cons_zero]
        exact (max_eq_left (le_of_not_lt hx)).symm

theorem getD_argminIdx (l : List Int) (h : l ≠ []) :
    l.getD (argminIdx l) 0 = minVal l := by
  induction l with
  | nil => exact absurd rfl h
  | cons x t ih =>
    cases t with
    | nil => rfl
    | cons y l2 =>
      rw [argminIdx, minVal]
      by_cases hx : minVal (y :: l2) < x
      · rw [if_pos hx]
        have := ih (by simp)
        simp only [List.getD_cons_succ]
        rw [this]
        exact (min_eq_right (le_of_lt hx)).symm
      · rw [if_neg hx]
        simp only [List.getD_cons_zero]
        exact (min_eq_left (le_of_not_lt hx)).symm

/-! Helper lemmas about list indexing. -/

theorem getD_cons_eraseIdx_perm {α : Type} (l : List α) (i : Nat) (d : α)
    (h : i < l.length) : List.Perm (l.getD i d :: l.eraseIdx i) l := by
  induction l generalizing i with
  | nil => simp at h
  | cons x t ih =>
    cases i with
    | zero => simp
    | succ n =>
      have hn : n < t.length := by simpa [Nat.succ_lt_succ_iff] using h
      simp only [List.getD_cons_succ, List.eraseIdx_cons_succ]
      exact List.Perm.trans (List.Perm.swap x (t.getD n d) (t.eraseIdx n))
        (List.Perm.cons x (ih n hn))

theorem getD_map_of_lt {α β : Type} (l : List α) (f : α → β) (i : Nat)
    (d : β) (d2 : α) (h : i < l.length) :
    (l.map f).getD i d = f (l.getD i d2) := by
  induction l generalizing i with
  | nil => simp at h
  | cons x t ih =>
    cases i with
    | zero => rfl
    | succ n =>
      have hn : n < t.length := by simpa [Nat.succ_lt_succ_iff] using h
      simpa using ih n hn

/-! Helper lemmas about the share-axes computation. -/

theorem shareCandidates_ne_nil (fig : List AxCore) (self : AxCore) (x : Bool) :
    shareCandidates fig self x ≠ [] := by
  unfold shareCandidates
  exact List.cons_ne_nil _ _

theorem get_share_axes_eq (fig : List AxCore) (self : AxCore) (x : Bool)
    (hs : self.subplot = true) :
    get_share_axes fig self x =
      (shareCandidates fig self x).getD
        (if x then argmaxIdx ((shareCandidates fig self x).map (shareValue x))
          else argminIdx ((shareCandidates fig self x).map (shareValue x))) self ::
      (shareCandidates fig self x).eraseIdx
        (if x then argmaxIdx ((shareCandidates fig self x).map (shareValue x))
          else argminIdx ((shareCandidates fig self x).map (shareValue x))) := by
  simp only [get_share_axes, hs]
  simp

theorem shareIdx_lt_length (fig : List AxCore) (self : AxCore) (x : Bool) :
    (if x then argmaxIdx ((shareCandidates fig self x).map (shareValue x))
      else argminIdx ((shareCandidates fig self x).map (shareValue x))) <
      (shareCandidates fig self x).length := by
  have hne : (shareCandidates fig self x).map (shareValue x) ≠ [] := by
    intro hc
    exact shareCandidates_ne_nil fig self x (List.map_eq_nil_iff.mp hc)
  cases x with
  | true =>
    have := argmaxIdx_lt_length _ hne
    rw [List.length_map] at this
    simpa using this
  | false =>
    have := argminIdx_lt_length _ hne
    rw [List.length_map] at this
    simpa using this

theorem get_share_axes_perm (fig : List AxCore) (self : AxCore) (x : Bool)
    (hs : self.subplot = true) :
    List.Perm (get_share_axes fig self x) (shareCandidates fig self x) := by
  rw [get_share_axes_eq fig self x hs]
  exact getD_cons_eraseIdx_perm _ _ _ (shareIdx_lt_length fig self x)

theorem get_share_axes_head_extreme (fig : List AxCore) (self : AxCore) (x : Bool)
    (hs : self.subplot = true) :
    ∀ a ∈ get_share_axes fig self x,
      (x = true →
        shareValue x a ≤ shareValue x ((get_share_axes fig self x).headD self)) ∧
      (x = false →
        shareValue x ((get_share_axes fig self x).headD self) ≤ shareValue x a) := by
  intro a ha
  have hperm := get_share_axes_perm fig self x hs
  have haxs : a ∈ shareCandidates fig self x := hperm.mem_iff.mp ha
  have hvmem : shareValue x a ∈ (shareCandidates fig self x).map (shareValue x) :=
    List.mem_map.mpr ⟨a, haxs, rfl⟩
  have hvne : (shareCandidates fig self x).map (shareValue x) ≠ [] := by
    intro hc
    exact shareCandidates_ne_nil fig self x (List.map_eq_nil_iff.mp hc)
  have hi := shareIdx_lt_length fig self x
  have hhead : (get_share_axes fig self x).headD self =
      (shareCandidates fig self x).getD
        (if x then argmaxIdx ((shareCandidates fig self x).map (shareValue x))
          else argminIdx ((shareCandidates fig self x).map (shareValue x))) self := by
    rw [get_share_axes_eq fig self x hs]
    rfl
  have hval : shareValue x ((get_share_axes fig self x).headD self) =
      ((shareCandidates fig self x).map (shareValue x)).getD
        (if x then argmaxIdx ((shareCandidates fig self x).map (shareValue x))
          else argminIdx ((shareCandidates fig self x).map (shareValue x))) 0 := by
    rw [hhead, getD_map_of_lt _ _ _ _ self hi]
  constructor
  · intro hx
    subst hx
    rw [hval]
    simp only [if_true]
    rw [getD_argmaxIdx _ hvne]
    exact le_maxVal _ _ hvmem
  · intro hx
    subst hx
    rw [hval]
    rw [if_neg (by simp : ¬(false = true))]
    rw [getD_argminIdx _ hvne]
    exact minVal_le _ _ hvmem

theorem mem_shareCandidates_range (fig : List AxCore) (self : AxCore) (x : Bool)
    (a : AxCore) (ha : a ∈ shareCandidates fig self x) :
    rangeSS a x = rangeSS self x := by
  unfold shareCandidates at ha
  rcases List.mem_cons.mp ha with hc | hc
  · rw [hc]
  · have := List.of_mem_filter (List.mem_of_mem_filter hc : a ∈ _)
    have h2 := List.mem_of_mem_filter hc
    have := List.of_mem_filter h2
    simpa using this

/-! Claims C1 and C2: the share-target computation. -/

/-- C1 (counterexample): with two candidate axes occupying the identical
extreme grid position, `_get_share_axes` does not raise any
`AmbiguousShareError` (no such error exists in the code); it silently
returns a list designating the first tied candidate as reference. -/
theorem get_share_axes_tie_silent :
    get_share_axes [sampleAx 1 (0, 0) (0, 0), sampleAx 2 (0, 0) (0, 0)]
        (sampleAx 1 (0, 0) (0, 0)) true =
      [sampleAx 1 (0, 0) (0, 0), sampleAx 2 (0, 0) (0, 0)] ∧
    (sampleAx 1 (0, 0) (0, 0)).rows = (sampleAx 2 (0, 0) (0, 0)).rows ∧
    (sampleAx 1 (0, 0) (0, 0)).cols = (sampleAx 2 (0, 0) (0, 0)).cols := by
  exact ⟨by decide, rfl, rfl⟩

/-- C1 (amended): for every main subplot, `_get_share_axes` always returns
normally with a non-empty list whose designated reference attains the
extreme grid position (maximal row start for x-sharing via `np.argmax`,
minimal column stop for y-sharing via `np.argmin`); when several
candidates tie at the extreme one of them is designated silently, no
`AmbiguousShareError` is raised. -/
theorem get_share_axes_silent_extreme (fig : List AxCore) (self : AxCore) (x : Bool)
    (hs : self.subplot = true) :
    get_share_axes fig self x ≠ [] ∧
    (x = true → ∀ a ∈ get_share_axes fig self x,
      a.rows.fst ≤ ((get_share_axes fig self x).headD self).rows.fst) ∧
    (x = false → ∀ a ∈ get_share_axes fig self x,
      ((get_share_axes fig self x).headD self).cols.snd ≤ a.cols.snd) := by
  refine ⟨?_, ?_, ?_⟩
  · rw [get_share_axes_eq fig self x hs]
    exact List.cons_ne_nil _ _
  · intro hx a ha
    have := (get_share_axes_head_extreme fig self x hs a ha).1 hx
    subst hx
    simp only [shareValue, if_true] at this
    exact_mod_cast this
  · intro hx a ha
    have := (get_share_axes_head_extreme fig self x hs a ha).2 hx
    subst hx
    simp only [shareValue] at this
    rw [if_neg (by simp : ¬(false = true))] at this
    rw [if_neg (by simp : ¬(false = true))] at this
    exact_mod_cast this

/-- C1 (witness): instantiation of the amended theorem on a concrete
two-axes column. -/
theorem get_share_axes_silent_extreme_witness :
    (sampleAx 1 (0, 0) (0, 0)).subplot = true ∧
    (get_share_axes [sampleAx 1 (0, 0) (0, 0), sampleAx 2 (1, 1) (0, 0)]
        (sampleAx 1 (0, 0) (0, 0)) true ≠ [] ∧
    (true = true → ∀ a ∈ get_share_axes [sampleAx 1 (0, 0) (0, 0), sampleAx 2 (1, 1) (0, 0)]
        (sampleAx 1 (0, 0) (0, 0)) true,
      a.rows.fst ≤ ((get_share_axes [sampleAx 1 (0, 0) (0, 0), sampleAx 2 (1, 1) (0, 0)]
        (sampleAx 1 (0, 0) (0, 0)) true).headD (sampleAx 1 (0, 0) (0, 0))).rows.fst) ∧
    (true = false → ∀ a ∈ get_share_axes [sampleAx 1 (0, 0) (0, 0), sampleAx 2 (1, 1) (0, 0)]
        (sampleAx 1 (0, 0) (0, 0)) true,
      ((get_share_axes [sampleAx 1 (0, 0) (0, 0), sampleAx 2 (1, 1) (0, 0)]
        (sampleAx 1 (0, 0) (0, 0)) true).headD (sampleAx 1 (0, 0) (0, 0))).cols.snd ≤ a.cols.snd)) :=
  ⟨by decide, get_share_axes_silent_extreme
    [sampleAx 1 (0, 0) (0, 0), sampleAx 2 (1, 1) (0, 0)]
    (sampleAx 1 (0, 0) (0, 0)) true (by decide)⟩

/-- C2: for every main subplot in a grid (with the figure's axes distinct
objects), `_get_share_axes` returns an ordered list with a single
designated reference first, followed by exactly the other non-hidden main
axes whose span along the shared grid dimension coincides; every listed
axes has the coinciding span, and the reference is leftmost (minimal
column start) for x-sharing and bottommost (maximal row start) for
y-sharing among them. -/
theorem get_share_axes_reference_first (fig : List AxCore) (self : AxCore) (x : Bool)
    (hs : self.subplot = true) (hnd : (fig.map AxCore.id).Nodup) :
    (∃ ref rest, get_share_axes fig self x = ref :: rest) ∧
    (∀ a ∈ get_share_axes fig self x, rangeSS a x = rangeSS self x) ∧
    self ∈ get_share_axes fig self x ∧
    (∀ a ∈ fig, a.panel_side = none → a.panel_hidden = false →
      rangeSS a x = rangeSS self x →
      a.id ∈ (get_share_axes fig self x).map AxCore.id) ∧
    ((get_share_axes fig self x).map AxCore.id).Nodup ∧
    (x = true → ∀ a ∈ get_share_axes fig self x,
      ((get_share_axes fig self x).headD self).cols.fst ≤ a.cols.fst) ∧
    (x = false → ∀ a ∈ get_share_axes fig self x,
      a.rows.fst ≤ ((get_share_axes fig self x).headD self).rows.fst) := by
  have hperm := get_share_axes_perm fig self x hs
  have hrange : ∀ a ∈ get_share_axes fig self x, rangeSS a x = rangeSS self x := by
    intro a ha
    exact mem_shareCandidates_range fig self x a (hperm.mem_iff.mp ha)
  have hself : self ∈ get_share_axes fig self x := by
    apply hperm.mem_iff.mpr
    unfold shareCandidates
    exact List.mem_cons_self _ _
  have hhead : (get_share_axes fig self x).headD self ∈ get_share_axes fig self x := by
    rw [get_share_axes_eq fig self x hs]
    exact List.mem_cons_self _ _
  refine ⟨?_, hrange, hself, ?_, ?_, ?_, ?_⟩
  · rw [get_share_axes_eq fig self x hs]
    exact ⟨_, _, rfl⟩
  · intro a ha hside hhid hr
    by_cases hid : a.id = self.id
    · rw [hid]
      exact List.mem_map.mpr ⟨self, hself, rfl⟩
    · have h1 : a ∈ iter_axes fig := by
        apply List.mem_filter.mpr
        exact ⟨ha, by simp [hside, hhid]⟩
      have h2 : a ∈ (iter_axes fig).filter (fun b => rangeSS b x = rangeSS self x) := by
        apply List.mem_filter.mpr
        exact ⟨h1, by simp [hr]⟩
      have h3 : a ∈ shareCandidates fig self x := by
        unfold shareCandidates
        apply List.mem_cons_of_mem
        apply List.mem_filter.mpr
        exact ⟨h2, by simp [hid]⟩
      exact List.mem_map.mpr ⟨a, hperm.mem_iff.mpr h3, rfl⟩
  · have hcand : ((shareCandidates fig self x).map AxCore.id).Nodup := by
      unfold shareCandidates
      rw [List.map_cons, List.nodup_cons]
      constructor
      · intro hc
        rcases List.mem_map.mp hc with ⟨b, hb, hbid⟩
        have := List.of_mem_filter hb
        simp only [decide_eq_true_eq] at this
        exact this hbid
      · have hsub : (((iter_axes fig).filter
            (fun b => rangeSS b x = rangeSS self x)).filter
              (fun b => ¬ b.id = self.id)).Sublist fig := by
          refine List.Sublist.trans (List.filter_sublist _) ?_
          refine List.Sublist.trans (List.filter_sublist _) ?_
          exact List.filter_sublist _
        exact ((hsub.map AxCore.id).nodup) hnd
    exact ((hperm.map AxCore.id).nodup_iff).mpr hcand
  · intro hx a ha
    have h1 := hrange a ha
    have h2 := hrange _ hhead
    subst hx
    simp only [rangeSS, if_true] at h1 h2
    rw [h1, h2]
  · intro hx a ha
    have h1 := hrange a ha
    have h2 := hrange _ hhead
    subst hx
    simp only [rangeSS] at h1 h2
    rw [if_neg (by simp : ¬(false = true))] at h1 h2
    rw [h1, h2]

/-- C2 (witness): instantiation on a concrete two-axes column for
x-sharing. -/
theorem get_share_axes_reference_first_witness :
    (sampleAx 1 (0, 0) (0, 0)).subplot = true ∧
    (([sampleAx 1 (0, 0) (0, 0), sampleAx 2 (1, 1) (0, 0)].map AxCore.id).Nodup) ∧
    ((∃ ref rest, get_share_axes [sampleAx 1 (0, 0) (0, 0), sampleAx 2 (1, 1) (0, 0)]
        (sampleAx 1 (0, 0) (0, 0)) true = ref :: rest) ∧
    (∀ a ∈ get_share_axes [sampleAx 1 (0, 0) (0, 0), sampleAx 2 (1, 1) (0, 0)]
        (sampleAx 1 (0, 0) (0, 0)) true,
      rangeSS a true = rangeSS (sampleAx 1 (0, 0) (0, 0)) true) ∧
    sampleAx 1 (0, 0) (0, 0) ∈ get_share_axes
        [sampleAx 1 (0, 0) (0, 0), sampleAx 2 (1, 1) (0, 0)]
        (sampleAx 1 (0, 0) (0, 0)) true ∧
    (∀ a ∈ [sampleAx 1 (0, 0) (0, 0), sampleAx 2 (1, 1) (0, 0)],
      a.panel_side = none → a.panel_hidden = false →
      rangeSS a true = rangeSS (sampleAx 1 (0, 0) (0, 0)) true →
      a.id ∈ (get_share_axes [sampleAx 1 (0, 0) (0, 0), sampleAx 2 (1, 1) (0, 0)]
        (sampleAx 1 (0, 0) (0, 0)) true).map AxCore.id) ∧
    ((get_share_axes [sampleAx 1 (0, 0) (0, 0), sampleAx 2 (1, 1) (0, 0)]
        (sampleAx 1 (0, 0) (0, 0)) true).map AxCore.id).Nodup ∧
    (true = true → ∀ a ∈ get_share_axes [sampleAx 1 (0, 0) (0, 0), sampleAx 2 (1, 1) (0, 0)]
        (sampleAx 1 (0, 0) (0, 0)) true,
      ((get_share_axes [sampleAx 1 (0, 0) (0, 0), sampleAx 2 (1, 1) (0, 0)]
        (sampleAx 1 (0, 0) (0, 0)) true).headD (sampleAx 1 (0, 0) (0, 0))).cols.fst ≤ a.cols.fst) ∧
    (true = false → ∀ a ∈ get_share_axes [sampleAx 1 (0, 0) (0, 0), sampleAx 2 (1, 1) (0, 0)]
        (sampleAx 1 (0, 0) (0, 0)) true,
      a.rows.fst ≤ ((get_share_axes [sampleAx 1 (0, 0) (0, 0), sampleAx 2 (1, 1) (0, 0)]
        (sampleAx 1 (0, 0) (0, 0)) true).headD (sampleAx 1 (0, 0) (0, 0))).rows.fst)) :=
  ⟨by decide, by decide, get_share_axes_reference_first
    [sampleAx 1 (0, 0) (0, 0), sampleAx 2 (1, 1) (0, 0)]
    (sampleAx 1 (0, 0) (0, 0)) true (by decide) (by decide)⟩

/-! Claim C4: slot transfer. -/

/-- C4 (counterexample): a slot holding the whitespace text `" "` refutes
the claim: `_transfer_text` leaves the source text `" "` (not empty) and
does not give the destination the source's text, because of the
`if not text.strip(): return` guard. -/
theorem transfer_text_blank_kept :
    (transfer_text { text := " ", color := "red" } { text := "x" }).fst.text = " " ∧
    ¬ (transfer_text { text := " ", color := "red" } { text := "x" }).fst.text = "" ∧
    (transfer_text { text := " ", color := "red" } { text := "x" }).snd.text = "x" := by
  decide

/-- C4 (amended): for texts with non-whitespace content the claim holds:
`_transfer_text` clears the source slot and hands the destination exactly
the source's text together with the source's color and font properties
(for blank text only color and font are copied and both texts stay). -/
theorem transfer_text_moves_nonblank (src dest : Text)
    (h : ¬ stripWS src.text = "") :
    (transfer_text src dest).fst.text = "" ∧
    (transfer_text src dest).snd.text = src.text ∧
    (transfer_text src dest).snd.color = src.color ∧
    (transfer_text src dest).snd.font = src.font ∧
    (transfer_text src dest).fst.color = src.color ∧
    (transfer_text src dest).fst.font = src.font := by
  simp [transfer_text, h]

/-- C4 (witness): instantiation of the amended theorem on concrete texts. -/
theorem transfer_text_moves_nonblank_witness :
    ¬ stripWS ({ text := "Hello", color := "red" } : Text).text = "" ∧
    ((transfer_text { text := "Hello", color := "red" } { text := "x" }).fst.text = "" ∧
    (transfer_text { text := "Hello", color := "red" } { text := "x" }).snd.text =
      ({ text := "Hello", color := "red" } : Text).text ∧
    (transfer_text { text := "Hello", color := "red" } { text := "x" }).snd.color =
      ({ text := "Hello", color := "red" } : Text).color ∧
    (transfer_text { text := "Hello", color := "red" } { text := "x" }).snd.font =
      ({ text := "Hello", color := "red" } : Text).font ∧
    (transfer_text { text := "Hello", color := "red" } { text := "x" }).fst.color =
      ({ text := "Hello", color := "red" } : Text).color ∧
    (transfer_text { text := "Hello", color := "red" } { text := "x" }).fst.font =
      ({ text := "Hello", color := "red" } : Text).font) :=
  ⟨by decide, transfer_text_moves_nonblank
    { text := "Hello", color := "red" } { text := "x" } (by decide)⟩

/-! Claim C9: hiding a panel. -/

theorem getD_set_ne {α : Type} (l : List α) (i j : Nat) (a d : α) (h : ¬ j = i) :
    (l.set i a).getD j d = l.getD j d := by
  induction l generalizing i j with
  | nil => rfl
  | cons x t ih =>
    cases i with
    | zero =>
      cases j with
      | zero => exact absurd rfl h
      | succ m => rfl
    | succ n =>
      cases j with
      | zero => rfl
      | succ m =>
        simpa using ih n m (by simpa using fun hc => h (by rw [hc]))

/-- C9: `_hide_panel` sets the hidden flag, makes every spine and both
axis objects invisible and zeroes the background patch (alpha 0,
facecolor `'none'`), while every other per-axes field — titles, pads,
locations, grid position, identity — is unchanged; in any panel stack
the hidden panel keeps its position, so the stack's length and all other
entries are untouched. -/
theorem hide_panel_effects :
    (∀ ax : AxCore,
      (hide_panel ax).panel_hidden = true ∧
      (∀ s ∈ (hide_panel ax).spines, s = false) ∧
      (hide_panel ax).spines.length = ax.spines.length ∧
      (hide_panel ax).xaxis_visible = false ∧
      (hide_panel ax).yaxis_visible = false ∧
      (hide_panel ax).patch_alpha = 0 ∧
      (hide_panel ax).patch_facecolor = "none" ∧
      (hide_panel ax).titles = ax.titles ∧
      (hide_panel ax).title_loc = ax.title_loc ∧
      (hide_panel ax).abc_loc = ax.abc_loc ∧
      (hide_panel ax).title_above = ax.title_above ∧
      (hide_panel ax).title_pad = ax.title_pad ∧
      (hide_panel ax).abc_title_pad = ax.abc_title_pad ∧
      (hide_panel ax).title_border_kwargs = ax.title_border_kwargs ∧
      (hide_panel ax).id = ax.id ∧
      (hide_panel ax).subplot = ax.subplot ∧
      (hide_panel ax).rows = ax.rows ∧
      (hide_panel ax).cols = ax.cols ∧
      (hide_panel ax).number = ax.number ∧
      (hide_panel ax).panel_side = ax.panel_side ∧
      (hide_panel ax).panel_share = ax.panel_share) ∧
    (∀ (stack : List AxCore) (i : Nat), i < stack.length →
      (stack.set i (hide_panel (stack.getD i {}))).length = stack.length ∧
      ∀ j, ¬ j = i →
        (stack.set i (hide_panel (stack.getD i {}))).getD j {} = stack.getD j {}) := by
  constructor
  · intro ax
    refine ⟨rfl, ?_, ?_, rfl, rfl, rfl, rfl, rfl, rfl, rfl, rfl, rfl, rfl, rfl,
      rfl, rfl, rfl, rfl, rfl, rfl, rfl⟩
    · intro s hs
      simp only [hide_panel, List.mem_map] at hs
      rcases hs with ⟨b, _, hb⟩
      exact hb.symm
    · simp [hide_panel]
  · intro stack i _
    exact ⟨by simp, fun j hj => getD_set_ne stack i j _ _ hj⟩

/-- C9 (witness): instantiation on a concrete two-panel stack. -/
theorem hide_panel_effects_witness :
    (hide_panel (sampleAx 3 (0, 0) (0, 0))).panel_hidden = true ∧
    (hide_panel (sampleAx 3 (0, 0) (0, 0))).titles = (sampleAx 3 (0, 0) (0, 0)).titles ∧
    0 < ([sampleAx 3 (0, 0) (0, 0), sampleAx 4 (0, 0) (0, 0)] : List AxCore).length ∧
    ([sampleAx 3 (0, 0) (0, 0), sampleAx 4 (0, 0) (0, 0)].set 0
      (hide_panel ([sampleAx 3 (0, 0) (0, 0), sampleAx 4 (0, 0) (0, 0)].getD 0 {}))).length =
      ([sampleAx 3 (0, 0) (0, 0), sampleAx 4 (0, 0) (0, 0)] : List AxCore).length ∧
    ([sampleAx 3 (0, 0) (0, 0), sampleAx 4 (0, 0) (0, 0)].set 0
      (hide_panel ([sampleAx 3 (0, 0) (0, 0), sampleAx 4 (0, 0) (0, 0)].getD 0 {}))).getD 1 {} =
      ([sampleAx 3 (0, 0) (0, 0), sampleAx 4 (0, 0) (0, 0)] : List AxCore).getD 1 {} := by
  have h := hide_panel_effects
  have hstack := h.2 [sampleAx 3 (0, 0) (0, 0), sampleAx 4 (0, 0) (0, 0)] 0 (by decide)
  exact ⟨(h.1 (sampleAx 3 (0, 0) (0, 0))).1,
    (h.1 (sampleAx 3 (0, 0) (0, 0))).2.2.2.2.2.2.2.1,
    by decide, hstack.1, hstack.2 1 (by decide)⟩

/-! Claim C10: a-b-c label construction. -/

theorem replaceFirst_splice (cs : List Char) :
    (cs.find? isAorA = none ∧ findIdxAorA cs = none) ∨
    (∃ i old, findIdxAorA cs = some i ∧ cs.find? isAorA = some old ∧
      cs.getD i 'a' = old ∧
      ∀ new, replaceFirstChar cs old new = cs.take i ++ new ++ cs.drop (i + 1)) := by
  induction cs with
  | nil => exact Or.inl ⟨rfl, rfl⟩
  | cons c rest ih =>
    by_cases hc : isAorA c = true
    · right
      refine ⟨0, c, ?_, ?_, rfl, ?_⟩
      · simp [findIdxAorA, hc]
      · simp [List.find?_cons, hc]
      · intro new
        simp [replaceFirstChar]
    · rcases ih with ⟨hf, hi⟩ | ⟨i, old, hi, hf, hg, hr⟩
      · left
        constructor
        · simp [List.find?_cons, hc, hf]
        · simp [findIdxAorA, hc, hi]
      · right
        refine ⟨i + 1, old, ?_, ?_, ?_, ?_⟩
        · simp [findIdxAorA, hc, hi]
        · simp [List.find?_cons, hc, hf]
        · simpa using hg
        · intro new
          have hcold : ¬ c = old := by
            intro hco
            have hold : isAorA old = true := List.find?_some hf
            rw [← hco] at hold
            exact hc hold
          simp only [replaceFirstChar, if_neg hcold]
          rw [hr new]
          simp [List.take_succ_cons, List.drop_succ_cons]

/-- C10: the label generator of `_update_abc` coincides with the claim's
description — it replaces the first `'a'`/`'A'` of the style string with
`((n-1) div 26 + 1)` repetitions of the `((n-1) mod 26)`-th alphabet
letter, upper-cased when the matched letter is `'A'` — so the sequence
runs a..z, then aa, bb, ...: number 27 gives `"aa"` and number 28 gives
`"bb"`, not `"ab"`. -/
theorem update_abc_label_spec :
    (∀ (s : String) (n : Nat), abcLabel s n = specAbcLabel s n) ∧
    abcLabel "a" 27 = some "aa" ∧
    abcLabel "a" 28 = some "bb" ∧
    abcLabel "a" 1 = some "a" ∧
    abcLabel "a" 26 = some "z" ∧
    abcLabel "A.a" 2 = some "B.a" := by
  refine ⟨?_, by decide, by decide, by decide, by decide, by decide⟩
  intro s n
  unfold abcLabel specAbcLabel
  rcases replaceFirst_splice s.toList with ⟨hf, hi⟩ | ⟨i, old, hi, hf, hg, hr⟩
  · rw [hf, hi]
  · rw [hf, hi]
    simp only [hg, hr]

/-! Claim C8: short-axis panel sharing. -/

theorem zip_getD {α β : Type} (l1 : List α) (l2 : List β) (i : Nat) (d1 : α) (d2 : β)
    (h : i < (l1.zip l2).length) :
    (l1.zip l2).getD i (d1, d2) = (l1.getD i d1, l2.getD i d2) := by
  induction l1 generalizing l2 i with
  | nil => simp at h
  | cons x t ih =>
    cases l2 with
    | nil => simp at h
    | cons y u =>
      cases i with
      | zero => rfl
      | succ n =>
        have hn : n < (t.zip u).length := by
          simpa [List.zip_cons_cons, Nat.succ_lt_succ_iff] using h
        simpa [List.zip_cons_cons] using ih u n hn

theorem getD_lt_mem {α : Type} (l : List α) (i : Nat) (d : α) (h : i < l.length) :
    l.getD i d ∈ l := by
  induction l generalizing i with
  | nil => simp at h
  | cons x t ih =>
    cases i with
    | zero => exact List.mem_cons_self _ _
    | succ n =>
      exact List.mem_cons_of_mem _ (ih n (by simpa [Nat.succ_lt_succ_iff] using h))

theorem mem_getD {α : Type} (l : List α) (a d : α) (h : a ∈ l) :
    ∃ i, i < l.length ∧ l.getD i d = a := by
  induction l with
  | nil => cases h
  | cons x t ih =>
    rcases List.mem_cons.mp h with hc | hc
    · exact ⟨0, by simp, hc.symm⟩
    · rcases ih hc with ⟨i, hi, hg⟩
      exact ⟨i + 1, by simpa [Nat.succ_lt_succ_iff] using hi, hg⟩

theorem nodup_getD_ne {α : Type} (l : List α) (hnd : l.Nodup) (i j : Nat) (d : α)
    (hi : i < l.length) (hj : j < l.length) (hij : ¬ i = j) :
    ¬ l.getD i d = l.getD j d := by
  induction l generalizing i j with
  | nil => simp at hi
  | cons x t ih =>
    have hx : x ∉ t := (List.nodup_cons.mp hnd).1
    have hnd2 := (List.nodup_cons.mp hnd).2
    cases i with
    | zero =>
      cases j with
      | zero => exact absurd rfl hij
      | succ m =>
        have hm : m < t.length := by simpa [Nat.succ_lt_succ_iff] using hj
        simp only [List.getD_cons_zero, List.getD_cons_succ]
        intro hc
        exact hx (hc ▸ getD_lt_mem t m d hm)
    | succ n =>
      cases j with
      | zero =>
        have hn : n < t.length := by simpa [Nat.succ_lt_succ_iff] using hi
        simp only [List.getD_cons_zero, List.getD_cons_succ]
        intro hc
        exact hx (hc ▸ getD_lt_mem t n d hn)
      | succ m =>
        exact ih hnd2 n m (by simpa [Nat.succ_lt_succ_iff] using hi)
          (by simpa [Nat.succ_lt_succ_iff] using hj)
          (fun hc => hij (by rw [hc]))

/-- C8: for two sibling main axes whose same-side stacks hold different
numbers of visible panels, `_share_short_axis` produces exactly the
pairwise `_share{x,y}_setup` walk over the first `min(m, n)` panels in
matching inside-to-outside order, and (with distinct panel identities)
every excess panel of the longer stack appears in no produced pair. -/
theorem share_short_axis_zip (self sh : MainAx) (side : Side)
    (hmain : self.core.panel_side = none)
    (_hne : ¬ ((self.panelDict side).filter (fun p => p.panel_hidden = false)).length =
      ((sh.panelDict side).filter (fun p => p.panel_hidden = false)).length) :
    (share_short_axis self (some sh) side).length =
      min ((self.panelDict side).filter (fun p => p.panel_hidden = false)).length
        ((sh.panelDict side).filter (fun p => p.panel_hidden = false)).length ∧
    (∀ i, i < (share_short_axis self (some sh) side).length →
      (share_short_axis self (some sh) side).getD i (0, 0, false) =
        ((((self.panelDict side).filter (fun p => p.panel_hidden = false)).getD i {}).id,
          (((sh.panelDict side).filter (fun p => p.panel_hidden = false)).getD i {}).id,
          (side = Side.left || side = Side.right))) ∧
    ((((self.panelDict side).filter (fun p => p.panel_hidden = false)).map AxCore.id).Nodup →
      ∀ j, (share_short_axis self (some sh) side).length ≤ j →
        j < ((self.panelDict side).filter (fun p => p.panel_hidden = false)).length →
        ∀ p ∈ share_short_axis self (some sh) side,
          ¬ p.fst = (((self.panelDict side).filter
            (fun p => p.panel_hidden = false)).getD j {}).id) ∧
    ((((sh.panelDict side).filter (fun p => p.panel_hidden = false)).map AxCore.id).Nodup →
      ∀ j, (share_short_axis self (some sh) side).length ≤ j →
        j < ((sh.panelDict side).filter (fun p => p.panel_hidden = false)).length →
        ∀ p ∈ share_short_axis self (some sh) side,
          ¬ p.snd.fst = (((sh.panelDict side).filter
            (fun p => p.panel_hidden = false)).getD j {}).id) := by
  have hdef : share_short_axis self (some sh) side =
      (((self.panelDict side).filter (fun p => p.panel_hidden = false)).zip
        ((sh.panelDict side).filter (fun p => p.panel_hidden = false))).map
          (fun cp => (cp.fst.id, cp.snd.id, (side = Side.left || side = Side.right))) := by
    simp [share_short_axis, hmain]
  refine ⟨?_, ?_, ?_, ?_⟩
  · rw [hdef, List.length_map, List.length_zip]
  · intro i hi
    rw [hdef, List.length_map] at hi
    rw [hdef, getD_map_of_lt _ _ i _ ({}, {}) hi, zip_getD _ _ i {} {} hi]
  · intro hnd j hj1 hj2 p hp
    rw [hdef] at hp hj1
    rw [List.length_map] at hj1
    rcases List.mem_map.mp hp with ⟨cp, hcp, hfp⟩
    rcases mem_getD _ cp ({}, {}) hcp with ⟨i, hi, hgi⟩
    have hzip := zip_getD _ _ i ({} : AxCore) ({} : AxCore) hi
    have hilt : i < ((self.panelDict side).filter
        (fun p => p.panel_hidden = false)).length :=
      lt_of_lt_of_le hi (by rw [List.length_zip]; exact min_le_left _ _)
    have hij : ¬ i = j := fun hc => absurd (hc ▸ hi) (not_lt_of_le hj1)
    have hneq := nodup_getD_ne _ hnd i j 0
      (by rw [List.length_map]; exact hilt)
      (by rw [List.length_map]; exact hj2) hij
    rw [getD_map_of_lt _ AxCore.id i 0 {} hilt,
      getD_map_of_lt _ AxCore.id j 0 {} hj2] at hneq
    intro hc
    apply hneq
    have hcp2 : cp = (((self.panelDict side).filter
        (fun p => p.panel_hidden = false)).getD i {},
      ((sh.panelDict side).filter (fun p => p.panel_hidden = false)).getD i {}) := by
      rw [← hgi, hzip]
    have : p.fst = (((self.panelDict side).filter
        (fun p => p.panel_hidden = false)).getD i {}).id := by
      rw [← hfp, hcp2]
    rw [← this, hc]
  · intro hnd j hj1 hj2 p hp
    rw [hdef] at hp hj1
    rw [List.length_map] at hj1
    rcases List.mem_map.mp hp with ⟨cp, hcp, hfp⟩
    rcases mem_getD _ cp ({}, {}) hcp with ⟨i, hi, hgi⟩
    have hzip := zip_getD _ _ i ({} : AxCore) ({} : AxCore) hi
    have hilt : i < ((sh.panelDict side).filter
        (fun p => p.panel_hidden = false)).length :=
      lt_of_lt_of_le hi (by rw [List.length_zip]; exact min_le_right _ _)
    have hij : ¬ i = j := fun hc => absurd (hc ▸ hi) (not_lt_of_le hj1)
    have hneq := nodup_getD_ne _ hnd i j 0
      (by rw [List.length_map]; exact hilt)
      (by rw [List.length_map]; exact hj2) hij
    rw [getD_map_of_lt _ AxCore.id i 0 {} hilt,
      getD_map_of_lt _ AxCore.id j 0 {} hj2] at hneq
    intro hc
    apply hneq
    have hcp2 : cp = (((self.panelDict side).filter
        (fun p => p.panel_hidden = false)).getD i {},
      ((sh.panelDict side).filter (fun p => p.panel_hidden = false)).getD i {}) := by
      rw [← hgi, hzip]
    have : p.snd.fst = (((sh.panelDict side).filter
        (fun p => p.panel_hidden = false)).getD i {}).id := by
      rw [← hfp, hcp2]
    rw [← this, hc]

/-- C8 (witness): instantiation on stacks of two and one visible left
panels. -/
theorem share_short_axis_zip_witness :
    sampleMain2.core.panel_side = none ∧
    ¬ ((sampleMain2.panelDict Side.left).filter
        (fun p => p.panel_hidden = false)).length =
      ((sampleMain1.panelDict Side.left).filter
        (fun p => p.panel_hidden = false)).length ∧
    ((share_short_axis sampleMain2 (some sampleMain1) Side.left).length =
      min ((sampleMain2.panelDict Side.left).filter
          (fun p => p.panel_hidden = false)).length
        ((sampleMain1.panelDict Side.left).filter
          (fun p => p.panel_hidden = false)).length ∧
    (∀ i, i < (share_short_axis sampleMain2 (some sampleMain1) Side.left).length →
      (share_short_axis sampleMain2 (some sampleMain1) Side.left).getD i (0, 0, false) =
        ((((sampleMain2.panelDict Side.left).filter
            (fun p => p.panel_hidden = false)).getD i {}).id,
          (((sampleMain1.panelDict Side.left).filter
            (fun p => p.panel_hidden = false)).getD i {}).id,
          (Side.left = Side.left || Side.left = Side.right))) ∧
    ((((sampleMain2.panelDict Side.left).filter
        (fun p => p.panel_hidden = false)).map AxCore.id).Nodup →
      ∀ j, (share_short_axis sampleMain2 (some sampleMain1) Side.left).length ≤ j →
        j < ((sampleMain2.panelDict Side.left).filter
          (fun p => p.panel_hidden = false)).length →
        ∀ p ∈ share_short_axis sampleMain2 (some sampleMain1) Side.left,
          ¬ p.fst = (((sampleMain2.panelDict Side.left).filter
            (fun p => p.panel_hidden = false)).getD j {}).id) ∧
    ((((sampleMain1.panelDict Side.left).filter
        (fun p => p.panel_hidden = false)).map AxCore.id).Nodup →
      ∀ j, (share_short_axis sampleMain2 (some sampleMain1) Side.left).length ≤ j →
        j < ((sampleMain1.panelDict Side.left).filter
          (fun p => p.panel_hidden = false)).length →
        ∀ p ∈ share_short_axis sampleMain2 (some sampleMain1) Side.left,
          ¬ p.snd.fst = (((sampleMain1.panelDict Side.left).filter
            (fun p => p.panel_hidden = false)).getD j {}).id)) :=
  ⟨by decide, by decide,
    share_short_axis_zip sampleMain2 sampleMain1 Side.left (by decide) (by decide)⟩

/-! Claim C7: outer-slot arbitration between the main axes and top panel. -/

theorem titleNames_nodup (k : TitleKey) : (titleNames k).Nodup := by
  unfold titleNames
  by_cases h : k = TitleKey.left ∨ k = TitleKey.center ∨ k = TitleKey.right
  · rw [if_pos h]
    decide
  · rw [if_neg h]
    decide

/-- C7: with a non-empty top panel stack, `_above_title` moves the
left/center/right slots (and the abc slot when the abc location is one of
those names) from the main axes to the outermost top panel when
`'title.above'` is `True`, or when it is `'panels'` and that panel is not
hidden; in every other case the flow is panel to main.  Both directions
are stated on slot occupancy: a non-blank source slot ends up empty while
the same-named destination slot holds exactly the source's text. -/
theorem above_title_direction (st : MainAx) (rest : List AxCore) (pax : AxCore)
    (htop : st.top = rest ++ [pax]) :
    ((st.core.title_above = TitleAbove.always ∨
        (pax.panel_hidden = false ∧ st.core.title_above = TitleAbove.panels)) →
      ∀ name ∈ titleNames st.core.abc_loc,
        ¬ stripWS (getT st.core.titles name).text = "" →
          (getT (above_title st).core.titles name).text = "" ∧
          (getT (((above_title st).top.getLast?.getD pax).titles) name).text =
            (getT st.core.titles name).text) ∧
    (¬ (st.core.title_above = TitleAbove.always ∨
        (pax.panel_hidden = false ∧ st.core.title_above = TitleAbove.panels)) →
      ∀ name ∈ titleNames st.core.abc_loc,
        ¬ stripWS (getT pax.titles name).text = "" →
          (getT (((above_title st).top.getLast?.getD pax).titles) name).text = "" ∧
          (getT (above_title st).core.titles name).text =
            (getT pax.titles name).text) := by
  have hred : above_title st = above_title_core st pax := by
    unfold above_title
    rw [htop, List.getLast?_concat]
  constructor
  · intro hcond name hmem hblank
    rw [hred]
    unfold above_title_core
    rw [if_pos hcond]
    dsimp only
    rw [htop, List.dropLast_concat, List.getLast?_concat]
    dsimp only [Option.getD_some]
    have hm := transferNames_mem (titleNames st.core.abc_loc)
      st.core.titles pax.titles name (titleNames_nodup _) hmem
    rw [hm.1, hm.2]
    constructor
    · simp [transfer_text, hblank]
    · simp [transfer_text, hblank]
  · intro hcond name hmem hblank
    rw [hred]
    unfold above_title_core
    rw [if_neg hcond]
    dsimp only
    rw [htop, List.dropLast_concat, List.getLast?_concat]
    dsimp only [Option.getD_some]
    have hm := transferNames_mem (titleNames st.core.abc_loc)
      pax.titles st.core.titles name (titleNames_nodup _) hmem
    rw [hm.1, hm.2]
    constructor
    · simp [transfer_text, hblank]
    · simp [transfer_text, hblank]

/-- C7 (witness): instantiation on a main axes with text `"Hello"` in the
center slot and one visible top panel under the `'panels'` preference. -/
theorem above_title_direction_witness :
    sampleTopSt.top = [] ++ [sampleAx 30 (0, 0) (0, 0)] ∧
    (((sampleTopSt.core.title_above = TitleAbove.always ∨
        ((sampleAx 30 (0, 0) (0, 0)).panel_hidden = false ∧
          sampleTopSt.core.title_above = TitleAbove.panels)) →
      ∀ name ∈ titleNames sampleTopSt.core.abc_loc,
        ¬ stripWS (getT sampleTopSt.core.titles name).text = "" →
          (getT (above_title sampleTopSt).core.titles name).text = "" ∧
          (getT (((above_title sampleTopSt).top.getLast?.getD
              (sampleAx 30 (0, 0) (0, 0))).titles) name).text =
            (getT sampleTopSt.core.titles name).text) ∧
    (¬ (sampleTopSt.core.title_above = TitleAbove.always ∨
        ((sampleAx 30 (0, 0) (0, 0)).panel_hidden = false ∧
          sampleTopSt.core.title_above = TitleAbove.panels)) →
      ∀ name ∈ titleNames sampleTopSt.core.abc_loc,
        ¬ stripWS (getT (sampleAx 30 (0, 0) (0, 0)).titles name).text = "" →
          (getT (((above_title sampleTopSt).top.getLast?.getD
              (sampleAx 30 (0, 0) (0, 0))).titles) name).text = "" ∧
          (getT (above_title sampleTopSt).core.titles name).text =
            (getT (sampleAx 30 (0, 0) (0, 0)).titles name).text)) :=
  ⟨by decide, above_title_direction sampleTopSt [] (sampleAx 30 (0, 0) (0, 0)) (by decide)⟩

/-! Claim C6: partial title updates. -/

theorem above_title_empty (st : MainAx) (h : st.top = []) : above_title st = st := by
  unfold above_title
  rw [h]
  rfl

theorem setPads_titles (core : AxCore) (pa pt : Option Int) :
    (setPads core pa pt).titles = core.titles := by
  unfold setPads
  cases pa <;> cases pt <;> rfl

theorem setPads_border (core : AxCore) (pa pt : Option Int) :
    (setPads core pa pt).title_border_kwargs = core.title_border_kwargs := by
  unfold setPads
  cases pa <;> cases pt <;> rfl

theorem rc_style_no_text (rcKw : KW) (h : "text" ∉ rcKw.map Prod.fst) :
    "text" ∉ (rc_title_style rcKw).map Prod.fst := by
  unfold rc_title_style
  by_cases hc : alGet rcKw "color" = some "auto"
  · rw [if_pos hc]
    intro hmem
    exact h (((List.filter_sublist rcKw).map Prod.fst).subset hmem)
  · rw [if_neg hc]
    exact h

theorem rc_style_nodup (rcKw : KW) (h : (rcKw.map Prod.fst).Nodup) :
    ((rc_title_style rcKw).map Prod.fst).Nodup := by
  unfold rc_title_style
  by_cases hc : alGet rcKw "color" = some "auto"
  · rw [if_pos hc]
    exact nodup_keys_alErase rcKw "color" h
  · rw [if_neg hc]
    exact h

/-- C6 (counterexample): on an axes with a visible top panel under the
`'panels'` title-above preference, `_update_title` with a `None` text and
a style override does not leave the slot's text in place — the trailing
`_above_title` arbitration moves it to the panel's slot, so the main
axes' center slot reads empty afterwards. -/
theorem update_title_top_panel_clears :
    (getT sampleTopSt.core.titles TitleKey.center).text = "Hello" ∧
    (getT (update_title sampleTopSt (some TitleKey.center) none [] [] [("color", "red")]
      none none none).core.titles TitleKey.center).text = "" := by
  decide

/-- C6 (amended): on an axes without top panels (so that title-above
arbitration leaves the slot in place), `_update_title` called with a
`None` text argument and style overrides never touches the slot's text
and still applies the style: the text field is overwritten only when the
text argument is non-None, and a `color` override lands in the slot's
color.  (With a top panel the text is transferred intact to the panel's
same-named slot instead, as the counterexample shows.) -/
theorem update_title_none_preserves_text (st : MainAx) (l : TitleKey)
    (rcKw kwb kwargs : KW) (padAbc padTitle : Option Int) (rcLoc : Option TitleKey)
    (htop : st.top = [])
    (hrc_nd : (rcKw.map Prod.fst).Nodup)
    (hkw_nd : (kwargs.map Prod.fst).Nodup)
    (ht1 : "text" ∉ rcKw.map Prod.fst)
    (ht2 : "text" ∉ kwb.map Prod.fst)
    (ht3 : "text" ∉ st.core.title_border_kwargs.map Prod.fst)
    (ht4 : "text" ∉ kwargs.map Prod.fst) :
    (getT (update_title st (some l) none rcKw kwb kwargs padAbc padTitle
      rcLoc).core.titles l).text = (getT st.core.titles l).text ∧
    (∀ v, alGet kwargs "color" = some v →
      (getT (update_title st (some l) none rcKw kwb kwargs padAbc padTitle
        rcLoc).core.titles l).color = v) := by
  have heq : update_title st (some l) none rcKw kwb kwargs padAbc padTitle rcLoc =
      above_title { st with core :=
        { setPads { st.core with
            title_border_kwargs := dictUpdate st.core.title_border_kwargs kwb }
              padAbc padTitle with
          titles := setT (setPads { st.core with
              title_border_kwargs := dictUpdate st.core.title_border_kwargs kwb }
                padAbc padTitle).titles l
            ((getT (setPads { st.core with
                title_border_kwargs := dictUpdate st.core.title_border_kwargs kwb }
                  padAbc padTitle).titles l).update
              (dictUpdate
                (if l = TitleKey.left ∨ l = TitleKey.right ∨ l = TitleKey.center
                  then rc_title_style rcKw
                  else dictUpdate (rc_title_style rcKw)
                    (setPads { st.core with
                      title_border_kwargs := dictUpdate st.core.title_border_kwargs kwb }
                        padAbc padTitle).title_border_kwargs)
                kwargs)) } } := rfl
  have hempty : update_title st (some l) none rcKw kwb kwargs padAbc padTitle rcLoc =
      { st with core :=
        { setPads { st.core with
            title_border_kwargs := dictUpdate st.core.title_border_kwargs kwb }
              padAbc padTitle with
          titles := setT (setPads { st.core with
              title_border_kwargs := dictUpdate st.core.title_border_kwargs kwb }
                padAbc padTitle).titles l
            ((getT (setPads { st.core with
                title_border_kwargs := dictUpdate st.core.title_border_kwargs kwb }
                  padAbc padTitle).titles l).update
              (dictUpdate
                (if l = TitleKey.left ∨ l = TitleKey.right ∨ l = TitleKey.center
                  then rc_title_style rcKw
                  else dictUpdate (rc_title_style rcKw)
                    (setPads { st.core with
                      title_border_kwargs := dictUpdate st.core.title_border_kwargs kwb }
                        padAbc padTitle).title_border_kwargs)
                kwargs)) } } := by
    rw [heq]
    exact above_title_empty _ htop
  rw [hempty]
  dsimp only
  rw [setPads_titles, setPads_border]
  dsimp only
  rw [getT_setT_self]
  have hkwB_text : "text" ∉
      (if l = TitleKey.left ∨ l = TitleKey.right ∨ l = TitleKey.center
        then rc_title_style rcKw
        else dictUpdate (rc_title_style rcKw)
          (dictUpdate st.core.title_border_kwargs kwb)).map Prod.fst := by
    by_cases hl : l = TitleKey.left ∨ l = TitleKey.right ∨ l = TitleKey.center
    · rw [if_pos hl]
      exact rc_style_no_text rcKw ht1
    · rw [if_neg hl]
      intro hmem
      rcases mem_keys_dictUpdate _ _ _ hmem with h1 | h1
      · exact rc_style_no_text rcKw ht1 h1
      · rcases mem_keys_dictUpdate _ _ _ h1 with h2 | h2
        · exact ht3 h2
        · exact ht2 h2
  have hkwB_nd :
      ((if l = TitleKey.left ∨ l = TitleKey.right ∨ l = TitleKey.center
        then rc_title_style rcKw
        else dictUpdate (rc_title_style rcKw)
          (dictUpdate st.core.title_border_kwargs kwb)).map Prod.fst).Nodup := by
    by_cases hl : l = TitleKey.left ∨ l = TitleKey.right ∨ l = TitleKey.center
    · rw [if_pos hl]
      exact rc_style_nodup rcKw hrc_nd
    · rw [if_neg hl]
      exact nodup_keys_dictUpdate _ _ (rc_style_nodup rcKw hrc_nd)
  constructor
  · apply update_text_of_no_text
    intro hmem
    rcases mem_keys_dictUpdate _ _ _ hmem with h1 | h1
    · exact hkwB_text h1
    · exact ht4 h1
  · intro v hv
    apply update_color_of_nodup _ _ v (nodup_keys_dictUpdate _ _ hkwB_nd)
    rw [alGet_dictUpdate_nodup _ _ _ hkw_nd, hv]
    rfl

/-- C6 (witness): instantiation on a panel-free axes with center text
`"Hi"` and a color override. -/
theorem update_title_none_preserves_text_witness :
    samplePlain.top = [] ∧
    (([("color", "red")] : KW).map Prod.fst).Nodup ∧
    (getT (update_title samplePlain (some TitleKey.center) none [] []
      [("color", "red")] none none none).core.titles TitleKey.center).text =
      (getT samplePlain.core.titles TitleKey.center).text ∧
    (∀ v, alGet ([("color", "red")] : KW) "color" = some v →
      (getT (update_title samplePlain (some TitleKey.center) none [] []
        [("color", "red")] none none none).core.titles TitleKey.center).color = v) := by
  have h := update_title_none_preserves_text samplePlain TitleKey.center [] []
    [("color", "red")] none none none (by decide) (by decide) (by decide)
    (by decide) (by decide) (by decide) (by decide)
  exact ⟨by decide, by decide, h.1, h.2⟩

/-! Claims C3 and C5: the guide queue. -/

theorem any_key_of_alGet_some {β : Type} (d : List (String × β)) (k : String) (v : β)
    (h : alGet d k = some v) : d.any (fun p => p.fst = k) = true := by
  unfold alGet at h
  cases hf : d.find? (fun p => p.fst = k) with
  | none => rw [hf] at h; simp at h
  | some p =>
    have hp : p ∈ d := List.mem_of_find?_eq_some hf
    have hpk := List.find?_some hf
    exact List.any_eq_true.mpr ⟨p, hp, hpk⟩

theorem alFind_map_keyfix {β : Type} (l : List (String × β))
    (g : (String × β) → (String × β)) (hg : ∀ p, (g p).fst = p.fst) (k : String) :
    (l.map g).find? (fun p => p.fst = k) = (l.find? (fun p => p.fst = k)).map g := by
  induction l with
  | nil => rfl
  | cons q t ih =>
    simp only [List.map_cons, List.find?_cons]
    rw [hg q]
    cases hq : decide (q.fst = k) with
    | true => rfl
    | false => exact ih

theorem filter_map_keyfix {β : Type} (l : List (String × β))
    (g : (String × β) → (String × β)) (hg : ∀ p, (g p).fst = p.fst) (k : String) :
    (l.map g).filter (fun p => p.fst = k) = (l.filter (fun p => p.fst = k)).map g := by
  induction l with
  | nil => rfl
  | cons q t ih =>
    simp only [List.map_cons, List.filter_cons]
    rw [hg q]
    cases hq : decide (q.fst = k) with
    | true => simp [ih]
    | false => exact ih

/-- C3 (counterexample): a resolved colorbar at a key, replaced by a new
payload registration, is popped from the registry without its `remove`
collaborator ever being invoked (the source's colorbar branch is `pass`),
refuting the detached-exactly-once claim for the colorbar kind. -/
theorem add_guide_colorbar_no_remove :
    alGet sampleGuideCb.colorbar_dict "right" = some (GuideEntry.resolved (GObj.raw 7)) ∧
    (add_guide sampleGuideCb GuideKind.colorbar
      (GuideInput.payload (some [1]) (some ["x"])) "right" []).snd = [] ∧
    (add_guide sampleGuideCb GuideKind.colorbar
      (GuideInput.payload (some [1]) (some ["x"])) "right" []).snd.length = 0 := by
  decide

/-- C3 (amended): replacing a resolved entry with a new payload pops the
old entry and installs the pending payload at the key; the `remove`
collaborator is invoked exactly once only for a legend that is not the
tracked `legend_` attribute — a tracked legend is dereferenced without a
`remove` call, and a colorbar is discarded without any `remove` call. -/
theorem add_guide_replace_resolved (st : GuideState) (loc : String) (prev : GObj)
    (h : Option (List Nat)) (l : Option (List String)) (kw : KW)
    (hloc : ¬ loc = "fill") :
    (alGet st.legend_dict loc = some (GuideEntry.resolved prev) →
      (¬ st.legend_attr = some prev →
        (add_guide st GuideKind.legend (GuideInput.payload h l) loc kw).snd = [prev]) ∧
      (st.legend_attr = some prev →
        (add_guide st GuideKind.legend (GuideInput.payload h l) loc kw).snd = [] ∧
        (add_guide st GuideKind.legend
          (GuideInput.payload h l) loc kw).fst.legend_attr = none) ∧
      alGet (add_guide st GuideKind.legend
          (GuideInput.payload h l) loc kw).fst.legend_dict loc =
        some (GuideEntry.pending (h.getD []) (l.getD []) (dictUpdate [] kw))) ∧
    (alGet st.colorbar_dict loc = some (GuideEntry.resolved prev) →
      (add_guide st GuideKind.colorbar (GuideInput.payload h l) loc kw).snd = [] ∧
      alGet (add_guide st GuideKind.colorbar
          (GuideInput.payload h l) loc kw).fst.colorbar_dict loc =
        some (GuideEntry.pending (h.getD []) (l.getD []) (dictUpdate [] kw))) := by
  constructor
  · intro hres
    have hafter : alGet (alErase st.legend_dict loc) loc = none :=
      alGet_alErase_self st.legend_dict loc
    by_cases hattr : st.legend_attr = some prev
    · have heq : add_guide st GuideKind.legend (GuideInput.payload h l) loc kw =
          ({ st with
            legend_dict := alErase st.legend_dict loc ++
              [(loc, GuideEntry.pending (h.getD []) (l.getD []) (dictUpdate [] kw))],
            legend_attr := none }, []) := by
        unfold add_guide
        rw [if_neg hloc]
        dsimp only
        rw [hres]
        dsimp only
        rw [if_pos hattr]
        dsimp only
        rw [hafter]
      refine ⟨fun hc => absurd hattr hc, fun _ => ?_, ?_⟩
      · rw [heq]
        exact ⟨rfl, rfl⟩
      · rw [heq]
        exact alGet_append_singleton_self _ _ _ hafter
    · have heq : add_guide st GuideKind.legend (GuideInput.payload h l) loc kw =
          ({ st with
            legend_dict := alErase st.legend_dict loc ++
              [(loc, GuideEntry.pending (h.getD []) (l.getD []) (dictUpdate [] kw))] },
            [prev]) := by
        unfold add_guide
        rw [if_neg hloc]
        dsimp only
        rw [hres]
        dsimp only
        rw [if_neg hattr]
        dsimp only
        rw [hafter]
      refine ⟨fun _ => ?_, fun hc => absurd hc hattr, ?_⟩
      · rw [heq]
      · rw [heq]
        exact alGet_append_singleton_self _ _ _ hafter
  · intro hres
    have hafter : alGet (alErase st.colorbar_dict loc) loc = none :=
      alGet_alErase_self st.colorbar_dict loc
    have heq : add_guide st GuideKind.colorbar (GuideInput.payload h l) loc kw =
        ({ st with
          colorbar_dict := alErase st.colorbar_dict loc ++
            [(loc, GuideEntry.pending (h.getD []) (l.getD []) (dictUpdate [] kw))] },
          []) := by
      unfold add_guide
      rw [if_neg hloc]
      dsimp only
      rw [hres]
      dsimp only
      rw [hafter]
    refine ⟨?_, ?_⟩
    · rw [heq]
    · rw [heq]
      exact alGet_append_singleton_self _ _ _ hafter

/-- C3 (witness): instantiation on a state holding a resolved legend and a
resolved colorbar at key `"left"`. -/
theorem add_guide_replace_resolved_witness :
    ¬ ("left" : String) = "fill" ∧
    ((alGet sampleGuideBoth.legend_dict "left" =
        some (GuideEntry.resolved (GObj.raw 5)) →
      (¬ sampleGuideBoth.legend_attr = some (GObj.raw 5) →
        (add_guide sampleGuideBoth GuideKind.legend
          (GuideInput.payload (some [1]) (some ["x"])) "left" []).snd = [GObj.raw 5]) ∧
      (sampleGuideBoth.legend_attr = some (GObj.raw 5) →
        (add_guide sampleGuideBoth GuideKind.legend
          (GuideInput.payload (some [1]) (some ["x"])) "left" []).snd = [] ∧
        (add_guide sampleGuideBoth GuideKind.legend
          (GuideInput.payload (some [1]) (some ["x"])) "left" []).fst.legend_attr = none) ∧
      alGet (add_guide sampleGuideBoth GuideKind.legend
          (GuideInput.payload (some [1]) (some ["x"])) "left" []).fst.legend_dict "left" =
        some (GuideEntry.pending ((some [1]).getD []) ((some ["x"]).getD [])
          (dictUpdate [] []))) ∧
    (alGet sampleGuideBoth.colorbar_dict "left" =
        some (GuideEntry.resolved (GObj.raw 7)) →
      (add_guide sampleGuideBoth GuideKind.colorbar
        (GuideInput.payload (some [1]) (some ["x"])) "left" []).snd = [] ∧
      alGet (add_guide sampleGuideBoth GuideKind.colorbar
          (GuideInput.payload (some [1]) (some ["x"])) "left" []).fst.colorbar_dict "left" =
        some (GuideEntry.pending ((some [1]).getD []) ((some ["x"]).getD [])
          (dictUpdate [] [])))) :=
  ⟨by decide, (add_guide_replace_resolved sampleGuideBoth "left" (GObj.raw 5)
      (some [1]) (some ["x"]) [] (by decide)).1,
    (add_guide_replace_resolved sampleGuideBoth "left" (GObj.raw 7)
      (some [1]) (some ["x"]) [] (by decide)).2⟩

theorem drawEntry_fst (p : String × GuideEntry) : (drawEntry p).fst = p.fst := by
  cases p with
  | mk a b => cases b <;> rfl

/-- C5: queueing a legend payload `([h1],[l1])` and then `([h2],[l2])` at
a fresh location key and flushing yields exactly one entry at that key,
resolved by the external draw collaborator from the accumulated handle
list `[h1, h2]`, label list `[l1, l2]` and the shallow-merged kwargs in
which later registrations overwrite earlier ones. -/
theorem legend_queue_merge_flush (st : GuideState) (loc : String)
    (h1 h2 : Nat) (l1 l2 : String) (kw1 kw2 : KW)
    (hloc : ¬ loc = "fill")
    (hnone : alGet st.legend_dict loc = none)
    (hnd1 : (kw1.map Prod.fst).Nodup)
    (hnd2 : (kw2.map Prod.fst).Nodup) :
    alGet (draw_guides (add_guide (add_guide st GuideKind.legend
        (GuideInput.payload (some [h1]) (some [l1])) loc kw1).fst GuideKind.legend
        (GuideInput.payload (some [h2]) (some [l2])) loc kw2).fst).legend_dict loc =
      some (GuideEntry.resolved (GObj.drawn loc [h1, h2] (some [l1, l2])
        (dictUpdate (dictUpdate [] kw1) kw2))) ∧
    (∀ k, alGet (dictUpdate (dictUpdate [] kw1) kw2) k =
      (alGet kw2 k).orElse (fun _ => alGet kw1 k)) ∧
    ((draw_guides (add_guide (add_guide st GuideKind.legend
        (GuideInput.payload (some [h1]) (some [l1])) loc kw1).fst GuideKind.legend
        (GuideInput.payload (some [h2]) (some [l2])) loc kw2).fst).legend_dict.filter
      (fun p => p.fst = loc)).length = 1 := by
  have e1 : add_guide st GuideKind.legend
        (GuideInput.payload (some [h1]) (some [l1])) loc kw1 =
      ({ st with
          legend_dict :=
            st.legend_dict ++
              [(loc, GuideEntry.pending [h1] [l1] (dictUpdate [] kw1))] },
        []) := by
    unfold add_guide
    rw [if_neg hloc]
    dsimp only
    rw [hnone]
    dsimp only
    rw [hnone]
    rfl
  have hd1 : alGet (st.legend_dict ++
        [(loc, GuideEntry.pending [h1] [l1] (dictUpdate [] kw1))]) loc =
      some (GuideEntry.pending [h1] [l1] (dictUpdate [] kw1)) :=
    alGet_append_singleton_self _ _ _ hnone
  have e2 : add_guide (add_guide st GuideKind.legend
        (GuideInput.payload (some [h1]) (some [l1])) loc kw1).fst GuideKind.legend
        (GuideInput.payload (some [h2]) (some [l2])) loc kw2 =
      ({ st with
          legend_dict :=
            alSet
              (st.legend_dict ++
                [(loc, GuideEntry.pending [h1] [l1] (dictUpdate [] kw1))])
              loc
              (GuideEntry.pending [h1, h2] [l1, l2]
                (dictUpdate (dictUpdate [] kw1) kw2)) },
        []) := by
    rw [e1]
    unfold add_guide
    rw [if_neg hloc]
    dsimp only
    rw [hd1]
    dsimp only
    rw [hd1]
    rfl
  have hany : (st.legend_dict ++
        [(loc, GuideEntry.pending [h1] [l1] (dictUpdate [] kw1))]).any
        (fun p => p.fst = loc) = true :=
    any_key_of_alGet_some _ _ _ hd1
  have hg : ∀ p : String × GuideEntry,
      ((fun p => if p.fst = loc then
        (loc, GuideEntry.pending [h1, h2] [l1, l2]
          (dictUpdate (dictUpdate [] kw1) kw2)) else p) p).fst = p.fst := by
    intro p
    by_cases hp : p.fst = loc
    · simp [hp]
    · simp [hp]
  have e3 : alSet
        (st.legend_dict ++
          [(loc, GuideEntry.pending [h1] [l1] (dictUpdate [] kw1))])
        loc
        (GuideEntry.pending [h1, h2] [l1, l2] (dictUpdate (dictUpdate [] kw1) kw2)) =
      (st.legend_dict ++
          [(loc, GuideEntry.pending [h1] [l1] (dictUpdate [] kw1))]).map
        (fun p => if p.fst = loc then
          (loc, GuideEntry.pending [h1, h2] [l1, l2]
            (dictUpdate (dictUpdate [] kw1) kw2)) else p) := by
    unfold alSet
    rw [if_pos hany]
  refine ⟨?_, ?_, ?_⟩
  · rw [e2]
    show alGet ((alSet _ _ _).map drawEntry) loc = _
    unfold alGet
    rw [alFind_map_keyfix _ drawEntry drawEntry_fst loc, alFind_alSet_self]
    rfl
  · intro k
    rw [alGet_dictUpdate_nodup _ kw2 k hnd2]
    have hinner : alGet (dictUpdate ([] : KW) kw1) k = alGet kw1 k := by
      rw [alGet_dictUpdate_nodup _ _ _ hnd1]
      cases alGet kw1 k <;> rfl
    rw [hinner]
  · rw [e2]
    show (((alSet _ _ _).map drawEntry).filter (fun p => p.fst = loc)).length = 1
    rw [filter_map_keyfix _ drawEntry drawEntry_fst loc, e3,
      filter_map_keyfix _ _ hg loc, List.filter_append,
      filter_eq_nil_of_alGet_none _ _ hnone]
    simp

/-- C5 (witness): instantiation on the empty guide state at key `"left"`
with two singleton payloads and overlapping kwargs. -/
theorem legend_queue_merge_flush_witness :
    ¬ ("left" : String) = "fill" ∧
    alGet ({} : GuideState).legend_dict "left" = none ∧
    (alGet (draw_guides (add_guide (add_guide {} GuideKind.legend
        (GuideInput.payload (some [1]) (some ["l1"])) "left" [("a", "1"), ("b", "1")]).fst
        GuideKind.legend
        (GuideInput.payload (some [2]) (some ["l2"])) "left" [("b", "2")]).fst).legend_dict
        "left" =
      some (GuideEntry.resolved (GObj.drawn "left" [1, 2] (some ["l1", "l2"])
        (dictUpdate (dictUpdate [] [("a", "1"), ("b", "1")]) [("b", "2")]))) ∧
    (∀ k, alGet (dictUpdate (dictUpdate [] [("a", "1"), ("b", "1")]) [("b", "2")]) k =
      (alGet [("b", "2")] k).orElse (fun _ => alGet [("a", "1"), ("b", "1")] k)) ∧
    ((draw_guides (add_guide (add_guide {} GuideKind.legend
        (GuideInput.payload (some [1]) (some ["l1"])) "left" [("a", "1"), ("b", "1")]).fst
        GuideKind.legend
        (GuideInput.payload (some [2]) (some ["l2"])) "left" [("b", "2")]).fst).legend_dict.filter
      (fun p => p.fst = "left")).length = 1) :=
  ⟨by decide, by decide, legend_queue_merge_flush {} "left" 1 2 "l1" "l2"
    [("a", "1"), ("b", "1")] [("b", "2")] (by decide) (by decide) (by decide) (by decide)⟩

end Proplot
